import Mathlib

/-!
Verification of the Watchtower uptime-monitoring core (renatoka/watchtower).

This file gives a shallow embedding, in Lean 4, of the TypeScript core:

* `src/app/lib/circuit-breaker.ts` — the per-endpoint circuit breaker
  (`CircuitBreaker.execute`, `onSuccess`, `onFailure`, `cleanOldTimestamps`);
* `src/app/lib/monitoring.ts` — the prober/scheduler
  (`MonitoringEngine.checkEndpoint`, `handleConsecutiveFailures`,
  `getUptimeStatistics`, `startEndpointMonitoring`,
  `restartEndpointMonitoring`, `stopMonitoring`);
* `src/app/lib/websocket-server.ts` — the live event bus (connection cap,
  room cap, subscribe/unsubscribe/disconnect bookkeeping);
* `src/app/lib/python-api.ts` (`DataCleanupJob.deleteOldDetailedData`) —
  the batched retention delete loop;
* `src/app/api/endpoints/route.ts` (`POST`) — endpoint-creation validation.

Modelling conventions:
* Wall-clock instants (`Date.now()`, timestamps) are integers (milliseconds);
  every function that reads the clock in TypeScript takes the instant as an
  explicit argument.
* JavaScript number arithmetic on rates and percentages is modelled over `ℚ`;
  `Math.round` is modelled as `⌊x + 1/2⌋` (round half towards +∞), which is
  its behaviour on the non-negative values arising here.
* The SQL store is modelled as the list of a single endpoint's check rows in
  timestamp-descending order (the order `ORDER BY timestamp DESC` returns).
* Async interleaving is modelled by giving each stateful subsystem an atomic
  step function and quantifying over arbitrary sequences of steps.
* JavaScript string operations used by the error classifier
  (`String.prototype.includes`, the regex `/Got (\d+)/`, template literals
  over numbers) are implemented on `List Char`.
-/

set_option linter.unusedVariables false

namespace Watchtower

/-! ### Strings: decimal printing, `includes`, and the `/Got (\d+)/` match -/

/-- Decimal digits of a natural number, most significant first; the model of a
JavaScript template literal `${n}` for the numbers interpolated by the core. -/
def natChars (n : ℕ) : List Char :=
  if h : n < 10 then [Nat.digitChar n]
  else natChars (n / 10) ++ [Nat.digitChar (n % 10)]
  decreasing_by exact Nat.div_lt_self (by omega) (by omega)

/-- String form of a natural number, built from `natChars`. -/
def natToString (n : ℕ) : String := ⟨natChars n⟩

/-- Numeric value of a list of decimal digit characters, as computed by
JavaScript `parseInt` on a string of digits. -/
def digitsToNat (l : List Char) : ℕ :=
  l.foldl (fun a c => 10 * a + (c.toNat - 48)) 0

/-- Containment of `p` in `s` as a contiguous run, the model of
JavaScript `s.includes(p)`. -/
def listIncludes (s p : List Char) : Bool :=
  s.tails.any (fun t => p.isPrefixOf t)

/-- JavaScript `s.includes(p)` on strings. -/
def strIncludes (s p : String) : Bool := listIncludes s.data p.data

/-- First match of the regex `/Got (\d+)/`: scan for the literal `Got ` followed
by at least one digit and return the value of the maximal digit run. -/
def findGotNum : List Char → Option ℕ
  | [] => none
  | c :: rest =>
    if c = 'G' ∧ ('o' :: 't' :: ' ' :: []).isPrefixOf rest then
      let tail := rest.drop 3
      let ds := tail.takeWhile Char.isDigit
      if ds.isEmpty then findGotNum rest
      else some (digitsToNat ds)
    else findGotNum rest

/-- Digit characters are produced for digit values. -/
theorem digitChar_isDigit {n : ℕ} (h : n < 10) : (Nat.digitChar n).isDigit = true :=
  match n, h with
  | 0, _ | 1, _ | 2, _ | 3, _ | 4, _ | 5, _ | 6, _ | 7, _ | 8, _ | 9, _ => rfl
  | (k + 10), hbad => absurd hbad (by omega)

/-- Code point of the character printed for a digit value. -/
theorem digitChar_toNat {n : ℕ} (h : n < 10) : (Nat.digitChar n).toNat = 48 + n :=
  match n, h with
  | 0, _ | 1, _ | 2, _ | 3, _ | 4, _ | 5, _ | 6, _ | 7, _ | 8, _ | 9, _ => rfl
  | (k + 10), hbad => absurd hbad (by omega)

/-- Every character printed for a number is a decimal digit. -/
theorem natChars_all_digits (n : ℕ) : ∀ c ∈ natChars n, c.isDigit = true := by
  induction n using Nat.strong_induction_on with
  | _ n ih =>
    rw [natChars]
    split
    · next h =>
      intro c hc
      simp only [List.mem_singleton] at hc
      subst hc; exact digitChar_isDigit h
    · next h =>
      intro c hc
      rcases List.mem_append.mp hc with h1 | h1
      · exact ih (n / 10) (Nat.div_lt_self (by omega) (by omega)) c h1
      · simp only [List.mem_singleton] at h1
        subst h1; exact digitChar_isDigit (Nat.mod_lt _ (by omega))

/-- Decimal printing produces at least one character. -/
theorem natChars_ne_nil (n : ℕ) : natChars n ≠ [] := by
  rw [natChars]
  split <;> simp

/-- Folding further digits extends the accumulated value positionally. -/
theorem digitsToNat_go (acc : ℕ) (l : List Char) :
    l.foldl (fun a c => 10 * a + (c.toNat - 48)) acc =
      acc * 10 ^ l.length + digitsToNat l := by
  induction l generalizing acc with
  | nil => simp [digitsToNat]
  | cons c rest ih =>
    simp only [List.foldl_cons, digitsToNat, List.length_cons] at *
    rw [ih, ih (10 * 0 + (c.toNat - 48))]
    ring

/-- Concatenation law for `digitsToNat`. -/
theorem digitsToNat_append (a b : List Char) :
    digitsToNat (a ++ b) = digitsToNat a * 10 ^ b.length + digitsToNat b := by
  simp only [digitsToNat, List.foldl_append]
  rw [digitsToNat_go]
  rfl

/-- Round trip: `parseInt` recovers the printed number. -/
theorem digitsToNat_natChars (n : ℕ) : digitsToNat (natChars n) = n := by
  induction n using Nat.strong_induction_on with
  | _ n ih =>
    rw [natChars]
    split
    · next h =>
      simp only [digitsToNat, List.foldl_cons, List.foldl_nil]
      rw [digitChar_toNat h]
      omega
    · next h =>
      rw [digitsToNat_append, ih (n / 10) (Nat.div_lt_self (by omega) (by omega))]
      simp only [digitsToNat, List.length_cons, List.length_nil, List.foldl_cons,
        List.foldl_nil]
      rw [digitChar_toNat (Nat.mod_lt _ (by omega))]
      omega

/-! ### Circuit breaker (`src/app/lib/circuit-breaker.ts`) -/

/-- The three breaker states of `CircuitState`. -/
inductive CircuitState
  | CLOSED
  | OPEN
  | HALF_OPEN
deriving DecidableEq, Repr

/-- Per-instance configuration `CircuitBreakerConfig` (the observer hook is
modelled separately as the transitions are visible in the state). -/
structure CircuitBreakerConfig where
  failureThreshold : ℕ
  resetTimeout : ℤ
  monitoringPeriod : ℤ
  minimumRequests : ℕ
deriving DecidableEq, Repr

/-- Mutable fields of a `CircuitBreaker` instance. -/
structure Breaker where
  state : CircuitState
  failures : ℕ
  successes : ℕ
  lastFailureTime : ℤ
  nextAttempt : ℤ
  requestCount : ℕ
  requestTimestamps : List ℤ
deriving DecidableEq, Repr

namespace Breaker

/-- Field initialisers of the `CircuitBreaker` class. -/
def initial : Breaker :=
  { state := .CLOSED, failures := 0, successes := 0, lastFailureTime := 0,
    nextAttempt := 0, requestCount := 0, requestTimestamps := [] }

/-- Method `cleanOldTimestamps`, with `Date.now()` passed as `now`: keep only
timestamps strictly newer than `now - monitoringPeriod`; when the pruned
window is empty, reset the failure/success/request counters. -/
def cleanOldTimestamps (cfg : CircuitBreakerConfig) (now : ℤ) (b : Breaker) : Breaker :=
  let cutoff := now - cfg.monitoringPeriod
  let ts := b.requestTimestamps.filter (fun t => cutoff < t)
  if ts.isEmpty then
    { b with requestTimestamps := ts, failures := 0, successes := 0, requestCount := 0 }
  else
    { b with requestTimestamps := ts }

/-- Method `onSuccess`: zero `failures`, record the sample, and in HALF_OPEN
count successes towards closing the breaker. -/
def onSuccess (cfg : CircuitBreakerConfig) (now : ℤ) (b : Breaker) : Breaker :=
  let b := { b with failures := 0, requestCount := b.requestCount + 1,
                    requestTimestamps := b.requestTimestamps ++ [now] }
  if b.state = .HALF_OPEN then
    let b := { b with successes := b.successes + 1 }
    if b.successes ≥ cfg.minimumRequests then
      { b with state := .CLOSED, successes := 0 }
    else b
  else b

/-- Method `onFailure`: record the sample; a HALF_OPEN failure reopens at
once, otherwise open when `requestCount ≥ minimumRequests` and
`failures / requestCount ≥ failureThreshold / 100`. The rate comparison is
written in the cross-multiplied integer form, which is equivalent over the
rationals since `requestCount` is positive here
(`onFailure_rate_iff_div` below proves the equivalence with the source's
division form). -/
def onFailure (cfg : CircuitBreakerConfig) (now : ℤ) (b : Breaker) : Breaker :=
  let b := { b with failures := b.failures + 1, successes := 0, lastFailureTime := now,
                    requestCount := b.requestCount + 1,
                    requestTimestamps := b.requestTimestamps ++ [now] }
  if b.state = .HALF_OPEN then
    { b with state := .OPEN, nextAttempt := now + cfg.resetTimeout }
  else if b.requestCount ≥ cfg.minimumRequests ∧
          cfg.failureThreshold * b.requestCount ≤ b.failures * 100 then
    { b with state := .OPEN, nextAttempt := now + cfg.resetTimeout }
  else
    b

/-- The cross-multiplied rate test of `onFailure` is the source's
`failures / requestCount >= failureThreshold / 100` over `ℚ`, for a positive
request count. -/
theorem onFailure_rate_iff_div (threshold failures requestCount : ℕ)
    (h : 0 < requestCount) :
    (threshold * requestCount ≤ failures * 100 ↔
      (threshold : ℚ) / 100 ≤ (failures : ℚ) / (requestCount : ℚ)) := by
  rw [div_le_div_iff₀ (by norm_num) (by exact_mod_cast h)]
  constructor
  · intro hle
    exact_mod_cast hle
  · intro hle
    exact_mod_cast hle

/-- Result of one `execute` call: rejected by an open breaker, or admitted
with the wrapped operation succeeding or failing. -/
inductive ExecResult
  | rejected
  | succeeded
  | failed
deriving DecidableEq, Repr

/-- Method `execute`, with the entry instant `tStart` (used by the pruning and
the OPEN-state check) and the instant `tEnd` at which the admitted operation
settles (used by the outcome recorders); `ok` tells whether the wrapped
operation resolves or throws. -/
def execute (cfg : CircuitBreakerConfig) (tStart tEnd : ℤ) (ok : Bool) (b : Breaker) :
    Breaker × ExecResult :=
  let b := cleanOldTimestamps cfg tStart b
  if b.state = .OPEN ∧ tStart < b.nextAttempt then
    (b, .rejected)
  else
    let b := if b.state = .OPEN then { b with state := .HALF_OPEN } else b
    if ok then (onSuccess cfg tEnd b, .succeeded)
    else (onFailure cfg tEnd b, .failed)

end Breaker

/-! ### Data model (`src/app/lib/types.ts`) -/

/-- Check status values. -/
inductive Status
  | UP
  | DOWN
deriving DecidableEq, Repr

/-- The fields of an `Endpoint` used by the monitoring core (`checkInterval`
and `timeout` are in seconds, as in the store schema). -/
structure Endpoint where
  id : String
  name : String
  url : String
  checkInterval : ℕ
  timeout : ℕ
  expectedStatus : ℕ
  enabled : Bool
deriving DecidableEq, Repr

/-- An `uptime_checks` row as built by `checkEndpoint` (the generated row id is
omitted; timestamps are epoch milliseconds). -/
structure CheckRow where
  endpointId : String
  endpointName : String
  status : Status
  statusCode : ℕ
  responseTime : ℤ
  timestamp : ℤ
  errorReason : Option String
deriving DecidableEq, Repr

/-! ### Prober (`MonitoringEngine.checkEndpoint` in `src/app/lib/monitoring.ts`) -/

/-- A JavaScript `Error` as seen by the catch block: its `name` and `message`
are all the classifier inspects. -/
structure JsError where
  name : String
  message : String
deriving DecidableEq, Repr

/-- Outcome of the `fetch` call itself: an HTTP response with some status, an
abort of the per-probe deadline (`AbortSignal.timeout`), or a transport-level
failure carrying the runtime's error message. -/
inductive FetchOutcome
  | response (status : ℕ)
  | abort
  | transport (msg : String)
deriving DecidableEq, Repr

/-- Breaker configuration used for every endpoint by `checkEndpoint`:
failureThreshold 70, resetTimeout three check intervals, monitoringPeriod five
minutes, minimumRequests 3. -/
def breakerConfigFor (e : Endpoint) : CircuitBreakerConfig :=
  { failureThreshold := 70
    resetTimeout := (e.checkInterval : ℤ) * 3000
    monitoringPeriod := 300000
    minimumRequests := 3 }

/-- Error thrown by the operation wrapped in `circuitBreaker.execute`, if any:
a status differing from `expectedStatus` throws
`Got {status}, expected {expectedStatus}`; an abort surfaces as an error named
`AbortError`; a transport failure keeps the runtime's message. -/
def opError (e : Endpoint) (fr : FetchOutcome) : Option JsError :=
  match fr with
  | .response s =>
    if s = e.expectedStatus then none
    else some ⟨"Error", "Got " ++ natToString s ++ ", expected " ++ natToString e.expectedStatus⟩
  | .abort => some ⟨"AbortError", "This operation was aborted"⟩
  | .transport msg => some ⟨"Error", msg⟩

/-- Error thrown by `CircuitBreaker.execute` on an OPEN rejection; the breaker
is registered under the factory name `endpoint-{id}`. -/
def breakerOpenError (e : Endpoint) : JsError :=
  ⟨"Error", "Circuit breaker is OPEN for endpoint-" ++ e.id⟩

/-- DOWN-check classification of the catch block once the open-breaker branch
has not fired: `AbortError` becomes a timeout, a message containing `Got` is
stored verbatim with the status parsed back out of it, anything else is
prefixed `Connection failed: `. Returns `(statusCode, errorReason)`. -/
def classifyDown (e : Endpoint) (err : JsError) : ℕ × String :=
  if err.name = "AbortError" then
    (0, "Timeout after " ++ natToString e.timeout ++ "s")
  else if strIncludes err.message "Got" then
    ((findGotNum err.message.data).getD 0, err.message)
  else
    (0, "Connection failed: " ++ err.message)

/-- Observable actions of one probe, in program order: the store insert, the
24-hour statistics read, the two broadcasts, and `systemStatus` notices. -/
inductive Action
  | insertCheck (c : CheckRow)
  | statsRead
  | emitNewCheck (c : CheckRow)
  | emitUptimeUpdate
  | emitSystemStatus (message : String) (type : String)
deriving DecidableEq, Repr

/-- Method `handleConsecutiveFailures` for one endpoint: reset the counter on
UP (announcing recovery after at least one failure), increment it on DOWN
(announcing every multiple of three). Returns the new counter and its
notices. -/
def handleConsecutiveFailures (cf : ℕ) (c : CheckRow) : ℕ × List Action :=
  match c.status with
  | .UP =>
    (0, if 0 < cf then
      [.emitSystemStatus (c.endpointName ++ " is back online after " ++ natToString cf
        ++ " failures") "info"]
    else [])
  | .DOWN =>
    let n := cf + 1
    (n, if n % 3 = 0 then
      [.emitSystemStatus (c.endpointName ++ " has " ++ natToString n
        ++ " consecutive failures") "error"]
    else [])

/-- Result of one `checkEndpoint` call: the breaker afterwards, the endpoint's
`consecutiveFailures` counter afterwards, and the trace of actions. -/
structure CheckResult where
  breaker : Breaker
  cf : ℕ
  trace : List Action
deriving DecidableEq, Repr

/-- The store/broadcast phase shared by the success path and the classified
failure path of `checkEndpoint`: insert the row, update
`consecutiveFailures` (emitting its notices), broadcast `newCheck`, read the
statistics and, when the read returns a row, broadcast `uptimeUpdate`. -/
def emitResult (b' : Breaker) (row : CheckRow) (cf : ℕ) (statsOk : Bool) : CheckResult :=
  ⟨b', (handleConsecutiveFailures cf row).1,
    .insertCheck row :: ((handleConsecutiveFailures cf row).2
      ++ [.emitNewCheck row, .statsRead]
      ++ (if statsOk then [.emitUptimeUpdate] else []))⟩

/-- The catch block of `checkEndpoint`, applied to the caught error: an error
whose message contains `Circuit breaker is OPEN` persists the short-circuit
DOWN row and returns; anything else persists the classified DOWN row and
broadcasts like the success path. -/
def checkEndpointCatch (e : Endpoint) (b' : Breaker) (err : JsError)
    (tStart tEnd : ℤ) (cf : ℕ) (statsOk : Bool) : CheckResult :=
  if strIncludes err.message "Circuit breaker is OPEN" then
    ⟨b', cf, [.insertCheck ⟨e.id, e.name, .DOWN, 0, 0, tEnd, some "Circuit breaker open"⟩]⟩
  else
    emitResult b'
      ⟨e.id, e.name, .DOWN, (classifyDown e err).1, tEnd - tStart, tEnd,
        some (classifyDown e err).2⟩ cf statsOk

/-- The UP row built on the success path (its status equals the response
status, which `execute` only lets through when it matches
`expectedStatus`). -/
def upRow (e : Endpoint) (fr : FetchOutcome) (tStart tEnd : ℤ) : CheckRow :=
  ⟨e.id, e.name, .UP, (match fr with | .response s => s | _ => 0), tEnd - tStart, tEnd, none⟩

/-- Continuation of `checkEndpoint` on the outcome of
`circuitBreaker.execute`. -/
def checkEndpointDispatch (e : Endpoint) (fr : FetchOutcome) (tStart tEnd : ℤ)
    (cf : ℕ) (statsOk : Bool) : Breaker × Breaker.ExecResult → CheckResult
  | (b', .succeeded) => emitResult b' (upRow e fr tStart tEnd) cf statsOk
  | (b', .rejected) => checkEndpointCatch e b' (breakerOpenError e) tStart tEnd cf statsOk
  | (b', .failed) =>
    checkEndpointCatch e b' ((opError e fr).getD ⟨"Error", ""⟩) tStart tEnd cf statsOk

/-- Method `checkEndpoint`: run the probe through the breaker; on success store
an UP row then broadcast `newCheck`, read statistics and broadcast
`uptimeUpdate`; on an error whose message contains `Circuit breaker is OPEN`
store the short-circuit DOWN row and return; on any other error store the
classified DOWN row and broadcast likewise. `tStart`/`tEnd` are the instants
at which the probe starts and settles, `cf` the endpoint's
`consecutiveFailures` entry, and `statsOk` whether the statistics read
returns a row (the endpoint still exists and the store read succeeds). -/
def checkEndpoint (e : Endpoint) (b : Breaker) (fr : FetchOutcome)
    (tStart tEnd : ℤ) (cf : ℕ) (statsOk : Bool) : CheckResult :=
  checkEndpointDispatch e fr tStart tEnd cf statsOk
    (Breaker.execute (breakerConfigFor e) tStart tEnd (opError e fr).isNone b)

/-! ### Statistics (`MonitoringEngine.getUptimeStatistics`) -/

/-- Milliseconds in the 24-hour statistics window. -/
def msPerDay : ℤ := 24 * 60 * 60 * 1000

/-- JavaScript `Math.round` on the non-negative values arising here: round
half towards positive infinity. -/
def jsRound (q : ℚ) : ℤ := ⌊q + 1 / 2⌋

/-- The two-decimal rounding `Math.round(x * 100) / 100` used for both the
uptime percentage and the average response time. -/
def round2 (q : ℚ) : ℚ := (jsRound (q * 100) : ℚ) / 100

/-- The derived `UptimeStatistics` record. -/
structure UptimeStatistics where
  endpointId : String
  totalChecks : ℕ
  successfulChecks : ℕ
  failedChecks : ℕ
  uptimePercentage : ℚ
  averageResponseTime : ℚ
  lastCheck : Option ℤ
  currentStatus : Status
  consecutiveFailures : ℕ
  recentChecks : List CheckRow
deriving DecidableEq, Repr

/-- Method `getUptimeStatistics` for one existing endpoint, over its check
rows in timestamp-descending order (the order `ORDER BY timestamp DESC`
returns): totals and averages come from the rows of the last 24 hours, the
recent tail and `currentStatus` from the newest rows of the whole history. -/
def getUptimeStatistics (eid : String) (cf : ℕ) (now : ℤ) (rows : List CheckRow) :
    UptimeStatistics :=
  let since := now - msPerDay
  let window := rows.filter (fun r => since ≤ r.timestamp)
  let total := window.length
  let succ := (window.filter (fun r => r.status = Status.UP)).length
  let failed := (window.filter (fun r => r.status = Status.DOWN)).length
  let rawPct : ℚ := if 0 < total then ((succ : ℚ) / (total : ℚ)) * 100 else 0
  let avgRaw : ℚ :=
    if 0 < total then (window.map (fun r => (r.responseTime : ℚ))).sum / (total : ℚ) else 0
  { endpointId := eid
    totalChecks := total
    successfulChecks := succ
    failedChecks := failed
    uptimePercentage := round2 rawPct
    averageResponseTime := round2 avgRaw
    lastCheck := (window.map (fun r => r.timestamp)).max?
    currentStatus := match rows with | [] => .UP | r :: _ => r.status
    consecutiveFailures := cf
    recentChecks := rows.take 10 }

/-- Rounding behaviour of `getUptimeStatistics` (the amended form of spec
property P7): `successfulChecks` never exceeds `totalChecks`; with no samples
in the window both the percentage and the average are 0; with samples, the
percentage is `(successful / total) * 10000` rounded half-up then divided by
100, the average response time is rounded the same way, and the percentage
always lies in `[0, 100]`. -/
def statsRounding (eid : String) (cf : ℕ) (now : ℤ) (rows : List CheckRow) : Prop :=
  let s := getUptimeStatistics eid cf now rows
  s.successfulChecks ≤ s.totalChecks ∧
  (s.totalChecks = 0 → s.uptimePercentage = 0 ∧ s.averageResponseTime = 0) ∧
  (0 < s.totalChecks →
    s.uptimePercentage =
      ((jsRound ((s.successfulChecks : ℚ) / (s.totalChecks : ℚ) * 10000) : ℤ) : ℚ) / 100 ∧
    s.averageResponseTime =
      ((jsRound ((((rows.filter (fun r => now - msPerDay ≤ r.timestamp)).map
          (fun r => (r.responseTime : ℚ))).sum / (s.totalChecks : ℚ)) * 100) : ℤ) : ℚ) / 100) ∧
  0 ≤ s.uptimePercentage ∧ s.uptimePercentage ≤ 100

/-! ### Scheduler loop registration (`startEndpointMonitoring`,
`restartEndpointMonitoring`, `stopMonitoring`) -/

/-- Lookup in an association list, first match wins (the semantics of
`Map.get`). -/
def alookup {β : Type} : List (String × β) → String → Option β
  | [], _ => none
  | (k, v) :: rest, key => if k = key then some v else alookup rest key

/-- Registration state of the scheduler: the `intervals` map from endpoint id
to timer handle, the set of live interval timers the runtime still fires
(handle paired with the endpoint id whose probes it drives), and the next
fresh handle. -/
structure SchedState where
  intervals : List (String × ℕ)
  timers : List (ℕ × String)
  nextTimer : ℕ
deriving DecidableEq, Repr

/-- A fresh `MonitoringEngine` holds no loops. -/
def SchedState.initial : SchedState := ⟨[], [], 0⟩

/-- Atomic control-path steps touching loop registration, the units between
which async interleaving can occur: `startEp id` is `startEndpointMonitoring`
for an enabled endpoint (a no-op when the id is already registered);
`clearEp id` is the teardown half of `restartEndpointMonitoring`; `stopAll`
is the teardown of `stopMonitoring`. A restart is `clearEp` followed later
by at most one `startEp`; `startMonitoring` is `stopAll` followed by a
`startEp` per enabled endpoint. -/
inductive SchedStep
  | startEp (id : String)
  | clearEp (id : String)
  | stopAll
deriving DecidableEq, Repr

/-- One scheduler step. -/
def applyStep (s : SchedState) : SchedStep → SchedState
  | .startEp id =>
    if (alookup s.intervals id).isSome then s
    else
      { intervals := (id, s.nextTimer) :: s.intervals
        timers := (s.nextTimer, id) :: s.timers
        nextTimer := s.nextTimer + 1 }
  | .clearEp id =>
    match alookup s.intervals id with
    | none => s
    | some t =>
      { intervals := s.intervals.filter (fun p => ¬(p.1 = id))
        timers := s.timers.filter (fun p => ¬(p.1 = t))
        nextTimer := s.nextTimer }
  | .stopAll =>
    { intervals := []
      timers := s.timers.filter (fun p => ¬(s.intervals.any (fun q => q.2 = p.1)))
      nextTimer := s.nextTimer }

/-- State after a sequence of scheduler steps from the fresh engine. -/
def runSched (steps : List SchedStep) : SchedState :=
  steps.foldl applyStep SchedState.initial

/-- Number of live probe timers registered for the endpoint `id`. -/
def timersFor (s : SchedState) (id : String) : ℕ :=
  (s.timers.filter (fun p => p.2 = id)).length

/-- Inductive invariant of the scheduler's registration state: the live
timers are exactly the `intervals` entries (handle paired with endpoint id),
endpoint ids and timer handles are unique, and every handle is older than the
next fresh one. -/
def SchedInv (s : SchedState) : Prop :=
  s.timers = s.intervals.map (fun q => (q.2, q.1)) ∧
  (s.intervals.map Prod.fst).Nodup ∧
  (s.intervals.map Prod.snd).Nodup ∧
  ∀ q ∈ s.intervals, q.2 < s.nextTimer

/-! ### Live event bus (`src/app/lib/websocket-server.ts`) -/

/-- Connection cap `MAX_CLIENTS`. -/
def MAX_CLIENTS : ℕ := 100

/-- Per-session room cap `MAX_ROOMS_PER_CLIENT`. -/
def MAX_ROOMS_PER_CLIENT : ℕ := 10

/-- Bus state: established sessions and the `clientRooms` map. -/
structure BusState where
  sessions : List String
  clientRooms : List (String × List String)
deriving DecidableEq, Repr

/-- A freshly initialised bus. -/
def BusState.initial : BusState := ⟨[], []⟩

/-- Visible outcomes of a bus operation. -/
inductive BusEvent
  | connectionRejected (sid : String)
  | connected (sid : String)
  | notice (sid : String) (message : String) (type : String)
  | joined (sid : String) (room : String)
  | left (sid : String) (room : String)
deriving DecidableEq, Repr

/-- Client-driven bus operations. -/
inductive BusOp
  | connect (sid : String)
  | subscribe (sid : String) (endpointId : Option String)
  | unsubscribe (sid : String) (endpointId : Option String)
  | disconnect (sid : String)
deriving DecidableEq, Repr

/-- Room named by a `subscribe`/`unsubscribe` payload. -/
def roomName (endpointId : Option String) : String :=
  match endpointId with
  | some id => "endpoint:" ++ id
  | none => "global"

/-- Remove the binding of `k` (the semantics of `Map.delete`). -/
def deleteKey {β : Type} (k : String) (m : List (String × β)) : List (String × β) :=
  m.filter (fun p => ¬(p.1 = k))

/-- Replace the binding of `k` (the semantics of `Map.set`). -/
def upsert {β : Type} (k : String) (v : β) (m : List (String × β)) : List (String × β) :=
  (k, v) :: deleteKey k m

/-- One bus operation: the connection middleware rejects past `MAX_CLIENTS`;
`subscribe` refuses with a `systemStatus` error once a session holds
`MAX_ROOMS_PER_CLIENT` rooms, and otherwise adds the room to the session's
set. -/
def applyBusOp (s : BusState) : BusOp → BusState × List BusEvent
  | .connect sid =>
    if MAX_CLIENTS ≤ s.sessions.length then
      (s, [.connectionRejected sid])
    else
      ({ sessions := sid :: s.sessions, clientRooms := upsert sid [] s.clientRooms },
        [.connected sid])
  | .subscribe sid endpointId =>
    let rooms := (alookup s.clientRooms sid).getD []
    if MAX_ROOMS_PER_CLIENT ≤ rooms.length then
      (s, [.notice sid "Subscription limit reached" "error"])
    else
      let room := roomName endpointId
      let rooms' := if room ∈ rooms then rooms else rooms ++ [room]
      ({ s with clientRooms := upsert sid rooms' s.clientRooms }, [.joined sid room])
  | .unsubscribe sid endpointId =>
    let rooms := (alookup s.clientRooms sid).getD []
    let room := roomName endpointId
    ({ s with clientRooms := upsert sid (rooms.filter (fun r => ¬(r = room))) s.clientRooms },
      [.left sid room])
  | .disconnect sid =>
    ({ sessions := s.sessions.filter (fun x => ¬(x = sid))
       clientRooms := deleteKey sid s.clientRooms }, [])

/-- Bus state after a sequence of operations on a fresh bus. -/
def runBus (ops : List BusOp) : BusState :=
  ops.foldl (fun s op => (applyBusOp s op).1) BusState.initial

/-- Rooms a session is currently a member of. -/
def roomsOf (s : BusState) (sid : String) : List String :=
  (alookup s.clientRooms sid).getD []

/-- Invariant of the bus: no session is a member of more than
`MAX_ROOMS_PER_CLIENT` rooms. -/
def BusInv (s : BusState) : Prop :=
  ∀ sid, (roomsOf s sid).length ≤ MAX_ROOMS_PER_CLIENT

/-! ### Retention detail delete (`DataCleanupJob.deleteOldDetailedData` in
`src/app/lib/python-api.ts`) -/

/-- One `DELETE ... WHERE id IN (SELECT id ... WHERE timestamp < $1 LIMIT $2)`
batch: remove up to `limit` rows older than `cutoff`, keeping everything
else. -/
def removeOldBatch (cutoff : ℤ) : ℕ → List CheckRow → List CheckRow
  | _, [] => []
  | 0, rows => rows
  | n + 1, r :: rest =>
    if r.timestamp < cutoff then removeOldBatch cutoff n rest
    else r :: removeOldBatch cutoff (n + 1) rest

/-- Number of rows a table holds that are older than the cutoff. -/
def oldCount (cutoff : ℤ) (rows : List CheckRow) : ℕ :=
  (rows.filter (fun r => r.timestamp < cutoff)).length

/-- Rows left older than the cutoff after one batch. -/
theorem removeOldBatch_oldCount (cutoff : ℤ) (n : ℕ) (rows : List CheckRow) :
    oldCount cutoff (removeOldBatch cutoff n rows) =
      oldCount cutoff rows - min n (oldCount cutoff rows) := by
  induction rows generalizing n with
  | nil => simp [removeOldBatch, oldCount]
  | cons r rest ih =>
    match n with
    | 0 => simp [removeOldBatch]
    | n + 1 =>
      by_cases h : r.timestamp < cutoff
      · simp only [removeOldBatch, if_pos h]
        rw [ih]
        simp only [oldCount, List.filter_cons, decide_eq_true_eq, if_pos h,
          List.length_cons]
        omega
      · simp only [removeOldBatch, if_neg h]
        simp only [oldCount, List.filter_cons, decide_eq_true_eq, if_neg h,
          List.length_cons]
        exact ih (n + 1)

/-- Length of the table after one batch: exactly `min n (oldCount)` rows go. -/
theorem removeOldBatch_length (cutoff : ℤ) (n : ℕ) (rows : List CheckRow) :
    (removeOldBatch cutoff n rows).length =
      rows.length - min n (oldCount cutoff rows) := by
  induction rows generalizing n with
  | nil => simp [removeOldBatch, oldCount]
  | cons r rest ih =>
    match n with
    | 0 => simp [removeOldBatch]
    | n + 1 =>
      by_cases h : r.timestamp < cutoff
      · simp only [removeOldBatch, if_pos h]
        rw [ih]
        simp only [oldCount, List.filter_cons, decide_eq_true_eq, if_pos h,
          List.length_cons]
        have := List.length_filter_le (fun r : CheckRow => decide (r.timestamp < cutoff)) rest
        simp only [oldCount] at *
        omega
      · simp only [removeOldBatch, if_neg h, List.length_cons]
        rw [ih]
        simp only [oldCount, List.filter_cons, decide_eq_true_eq, if_neg h]
        have := List.length_filter_le (fun r : CheckRow => decide (r.timestamp < cutoff)) rest
        simp only [oldCount] at *
        omega

/-- A table holds at least as many rows as it holds old rows. -/
theorem oldCount_le_length (cutoff : ℤ) (rows : List CheckRow) :
    oldCount cutoff rows ≤ rows.length :=
  List.length_filter_le _ rows

/-- The `do { delete batch; sleep } while (deleted > 0)` loop of
`deleteOldDetailedData`: run batches of `batchSize` until one deletes
nothing; return the final table and the total deleted count. The first batch
always runs, as in the `do`/`while`. -/
def deleteOldDetailedData (cutoff : ℤ) (batchSize : ℕ) (rows : List CheckRow) :
    List CheckRow × ℕ :=
  if h : rows.length - (removeOldBatch cutoff batchSize rows).length = 0 then
    (removeOldBatch cutoff batchSize rows, 0)
  else
    let r := deleteOldDetailedData cutoff batchSize (removeOldBatch cutoff batchSize rows)
    (r.1, (rows.length - (removeOldBatch cutoff batchSize rows).length) + r.2)
  termination_by oldCount cutoff rows
  decreasing_by
    rw [removeOldBatch_oldCount]
    rw [removeOldBatch_length] at h
    have h1 := oldCount_le_length cutoff rows
    omega

/-! ### Endpoint creation (`POST` in `src/app/api/endpoints/route.ts`) -/

/-- Request body of an `AddEndpoint` call as the handler reads it: `name` and
`url` as given (`none` for an absent field), `urlScheme` the protocol
`new URL(url)` parses out of the url (`none` when the url does not parse),
and the numeric fields as `parseInt` leaves them (`none` for `NaN`). -/
structure EndpointInput where
  name : Option String
  url : Option String
  urlScheme : Option String
  checkInterval : Option ℤ
  timeout : Option ℤ
  expectedStatus : Option ℤ
  severity : Option String
deriving DecidableEq, Repr

/-- JavaScript falsiness of an optional string: absent or empty. -/
def isFalsyStr : Option String → Bool
  | none => true
  | some s => s = ""

/-- Whitespace trim on both ends of a character list (`String.prototype.trim`). -/
def trimChars (l : List Char) : List Char :=
  ((l.dropWhile Char.isWhitespace).reverse.dropWhile Char.isWhitespace).reverse

/-- The route's `sanitizeString`: trim, then truncate to `maxLength`. -/
def sanitizeString (s : String) (maxLength : ℕ) : String :=
  ⟨(trimChars s.data).take maxLength⟩

/-- ASCII lower-casing of one character (the fragment of `toLowerCase` the
names here exercise). -/
def lowerChar (c : Char) : Char :=
  if 'A' ≤ c ∧ c ≤ 'Z' then Char.ofNat (c.toNat + 32) else c

/-- ASCII lower-casing of a string, for the `LOWER(name) = LOWER($1)`
duplicate check. -/
def lowerStr (s : String) : String := ⟨s.data.map lowerChar⟩

/-- JavaScript `parseInt(x) || d`: the default replaces both `NaN` and `0`. -/
def parsedOr (d : ℤ) : Option ℤ → ℤ
  | none => d
  | some v => if v = 0 then d else v

/-- The clamp `Math.min(hi, Math.max(lo, v))`. -/
def clampInt (lo hi v : ℤ) : ℤ := min hi (max lo v)

/-- The `VALID_SEVERITIES` list. -/
def VALID_SEVERITIES : List String := ["critical", "high", "medium", "low"]

/-- Outcome of the `POST` handler: an error response with its HTTP status, or
a created endpoint row (tags and timestamps omitted; `enabled` is always
inserted as true). -/
inductive PostOutcome
  | validationError (message : String) (status : ℕ)
  | created (name : String) (checkInterval timeout expectedStatus : ℤ) (severity : String)
deriving DecidableEq, Repr

/-- The `POST` handler's validation pipeline over the already-parsed body,
with `existingNames` the names present in the `endpoints` table: missing
name/url, empty sanitised name and bad URL scheme are rejected; the numeric
fields are clamped (`checkInterval` into `[5, 3600]` with default 30,
`timeout` into `[1, 60]` with default 5, `expectedStatus` into `[100, 599]`
with default 200); then `timeout ≥ checkInterval` and case-insensitive name
collisions are rejected; otherwise the endpoint row is inserted. -/
def postEndpoint (existingNames : List String) (input : EndpointInput) : PostOutcome :=
  if isFalsyStr input.name || isFalsyStr input.url then
    .validationError "Name and URL are required" 400
  else
    let sanitizedName := sanitizeString (input.name.getD "") 255
    if sanitizedName.length < 1 then
      .validationError "Name cannot be empty" 400
    else if ¬(input.urlScheme = some "http:" ∨ input.urlScheme = some "https:") then
      .validationError "Invalid URL. Must be a valid HTTP or HTTPS URL" 400
    else
      let validatedCheckInterval := clampInt 5 3600 (parsedOr 30 input.checkInterval)
      let validatedTimeout := clampInt 1 60 (parsedOr 5 input.timeout)
      let validatedExpectedStatus := clampInt 100 599 (parsedOr 200 input.expectedStatus)
      let validatedSeverity :=
        match input.severity with
        | some s => if VALID_SEVERITIES.contains s then s else "medium"
        | none => "medium"
      if validatedCheckInterval ≤ validatedTimeout then
        .validationError "Timeout must be less than check interval" 400
      else if existingNames.any (fun n => lowerStr n = lowerStr sanitizedName) then
        .validationError "An endpoint with this name already exists" 409
      else
        .created sanitizedName validatedCheckInterval validatedTimeout
          validatedExpectedStatus validatedSeverity

/-! ### String lemmas for the error classifier -/

/-- A list is a prefix of itself followed by anything. -/
theorem isPrefixOf_append_self (p r : List Char) : p.isPrefixOf (p ++ r) = true := by
  induction p with
  | nil => simp [List.isPrefixOf]
  | cons c cs ih => simp [List.isPrefixOf, ih]

/-- A string that starts with the pattern includes it. -/
theorem listIncludes_of_eq_append {s p r : List Char} (h : s = p ++ r) :
    listIncludes s p = true := by
  subst h
  simp only [listIncludes, List.any_eq_true]
  exact ⟨p ++ r, (List.mem_tails _ _).mpr (List.suffix_refl _), isPrefixOf_append_self p r⟩

/-- The head of an included pattern occurs in the string. -/
theorem mem_of_listIncludes_cons {s p : List Char} {c : Char}
    (h : listIncludes s (c :: p) = true) : c ∈ s := by
  simp only [listIncludes, List.any_eq_true] at h
  obtain ⟨t, ht, hp⟩ := h
  have hsub : t ⊆ s := ((List.mem_tails _ _).mp ht).sublist.subset
  apply hsub
  match t with
  | [] => simp [List.isPrefixOf] at hp
  | t0 :: ts =>
    simp only [List.isPrefixOf, Bool.and_eq_true, beq_iff_eq] at hp
    simp [hp.1]

/-- A string missing the head of the pattern does not include it. -/
theorem listIncludes_eq_false_of_head_not_mem {s p : List Char} {c : Char}
    (h : c ∉ s) : listIncludes s (c :: p) = false := by
  rcases hb : listIncludes s (c :: p) with _ | _
  · rfl
  · exact absurd (mem_of_listIncludes_cons hb) h

/-- A take-while scan passes over a block that satisfies the predicate. -/
theorem takeWhile_append_all {p : Char → Bool} {l : List Char} (r : List Char)
    (h : ∀ x ∈ l, p x = true) :
    (l ++ r).takeWhile p = l ++ r.takeWhile p := by
  induction l with
  | nil => simp
  | cons c cs ih =>
    simp only [List.cons_append, List.takeWhile_cons, h c (by simp)]
    simp [ih (fun x hx => h x (by simp [hx]))]

/-- A take-while scan stops at a failing head. -/
theorem takeWhile_eq_nil_of_head {p : Char → Bool} {r : List Char}
    (h : ∀ c, r.head? = some c → p c = false) : r.takeWhile p = [] := by
  match r with
  | [] => rfl
  | c :: cs => simp [List.takeWhile_cons, h c rfl]

/-- The `/Got (\d+)/` scanner on a string that starts with `Got ` followed by a
non-empty digit block and a non-digit continuation finds exactly that block. -/
theorem findGotNum_here {ds r : List Char} (hne : ds ≠ [])
    (hdig : ∀ c ∈ ds, c.isDigit = true)
    (hr : ∀ c, r.head? = some c → c.isDigit = false) :
    findGotNum ('G' :: 'o' :: 't' :: ' ' :: (ds ++ r)) = some (digitsToNat ds) := by
  rw [findGotNum]
  have hpre : (['o', 't', ' '] : List Char).isPrefixOf ('o' :: 't' :: ' ' :: (ds ++ r)) = true := by
    simp [List.isPrefixOf]
  rw [if_pos ⟨rfl, hpre⟩]
  simp only [List.drop_succ_cons, List.drop_zero]
  rw [takeWhile_append_all r hdig, takeWhile_eq_nil_of_head hr, List.append_nil]
  rw [if_neg (by simpa using hne)]

/-- Character data of the message `Got {got}, expected {expected}`. -/
theorem gotMessage_data (got expected : ℕ) :
    ("Got " ++ natToString got ++ ", expected " ++ natToString expected).data =
      'G' :: 'o' :: 't' :: ' ' ::
        (natChars got ++ (',' :: ' ' :: ('e' :: 'x' :: 'p' :: 'e' :: 'c' :: 't' :: 'e' :: 'd' ::
          ' ' :: natChars expected))) := by
  simp only [String.data_append, natToString, List.append_assoc]
  rfl

/-- The breaker-open error message contains the marker the catch block tests. -/
theorem breakerOpenError_includes (e : Endpoint) :
    strIncludes (breakerOpenError e).message "Circuit breaker is OPEN" = true := by
  apply listIncludes_of_eq_append
  show ("Circuit breaker is OPEN for endpoint-" ++ e.id).data =
    "Circuit breaker is OPEN".data ++ (" for endpoint-".data ++ e.id.data)
  rw [String.data_append]
  have h : ("Circuit breaker is OPEN for endpoint-" : String).data =
      ("Circuit breaker is OPEN" : String).data ++ (" for endpoint-" : String).data := by rfl
  rw [h, List.append_assoc]

/-! ## Claims -/

/-- Claim C1 asserts that a probe rejected by an open breaker leaves the
breaker's counters and timestamp window unchanged. It does not: `execute`
prunes stale timestamps before the OPEN check, and the pruning resets the
counters when the window empties. Here an endpoint with a 200 s interval
(resetTimeout 600 000 ms, monitoringPeriod 300 000 ms) accumulates three
failures at t = 0, 1, 2, opening the breaker until t = 600 002; the probe at
t = 350 000 is rejected — it persists exactly the short-circuit DOWN row —
yet the same call empties the window `[0, 1, 2]` and resets `requestCount`
from 3 to 0. -/
theorem C1_counterexample :
    let e : Endpoint := ⟨"e1", "svc", "http://x", 200, 2, 200, true⟩
    let b1 : Breaker := ⟨.CLOSED, 1, 0, 0, 0, 1, [0]⟩
    let b2 : Breaker := ⟨.CLOSED, 2, 0, 1, 0, 2, [0, 1]⟩
    let b3 : Breaker := ⟨.OPEN, 3, 0, 2, 600002, 3, [0, 1, 2]⟩
    let r4 := checkEndpoint e b3 (.transport "boom") 350000 350000 3 true
    ((checkEndpoint e Breaker.initial (.transport "boom") 0 0 0 true).breaker = b1 ∧
      (checkEndpoint e Breaker.initial (.transport "boom") 0 0 0 true).cf = 1) ∧
    ((checkEndpoint e b1 (.transport "boom") 1 1 1 true).breaker = b2 ∧
      (checkEndpoint e b1 (.transport "boom") 1 1 1 true).cf = 2) ∧
    ((checkEndpoint e b2 (.transport "boom") 2 2 2 true).breaker = b3 ∧
      (checkEndpoint e b2 (.transport "boom") 2 2 2 true).cf = 3) ∧
    b3.state = .OPEN ∧ (350000 : ℤ) < b3.nextAttempt ∧
    r4.trace = [.insertCheck ⟨"e1", "svc", .DOWN, 0, 0, 350000, some "Circuit breaker open"⟩] ∧
    r4.cf = 3 ∧
    b3.requestCount = 3 ∧ r4.breaker.requestCount = 0 ∧
    b3.requestTimestamps = [0, 1, 2] ∧ r4.breaker.requestTimestamps = [] := by
  decide

/-- Claim C1 (amended): a probe attempt rejected because the breaker is OPEN
and `now < nextAttempt` records no new sample — the breaker afterwards is
exactly the input breaker with stale timestamps pruned (which is the only
mutation, and resets the counters when the pruned window is empty) — and the
scheduler persists exactly one DOWN check with errorReason
`Circuit breaker open`, statusCode 0, responseTime 0, leaving the endpoint's
`consecutiveFailures` counter unchanged. -/
theorem C1_short_circuit (e : Endpoint) (b : Breaker) (fr : FetchOutcome)
    (tStart tEnd : ℤ) (cf : ℕ) (statsOk : Bool)
    (hopen : (Breaker.cleanOldTimestamps (breakerConfigFor e) tStart b).state = .OPEN)
    (hwait : tStart < (Breaker.cleanOldTimestamps (breakerConfigFor e) tStart b).nextAttempt) :
    (checkEndpoint e b fr tStart tEnd cf statsOk).breaker
        = Breaker.cleanOldTimestamps (breakerConfigFor e) tStart b ∧
    (checkEndpoint e b fr tStart tEnd cf statsOk).trace
        = [.insertCheck ⟨e.id, e.name, .DOWN, 0, 0, tEnd, some "Circuit breaker open"⟩] ∧
    (checkEndpoint e b fr tStart tEnd cf statsOk).cf = cf := by
  have hex : Breaker.execute (breakerConfigFor e) tStart tEnd ((opError e fr).isNone) b
      = (Breaker.cleanOldTimestamps (breakerConfigFor e) tStart b, .rejected) := by
    simp only [Breaker.execute]
    rw [if_pos ⟨hopen, hwait⟩]
  unfold checkEndpoint
  rw [hex]
  simp only [checkEndpointDispatch, checkEndpointCatch]
  rw [if_pos (breakerOpenError_includes e)]
  exact ⟨rfl, rfl, rfl⟩

/-- Witness for `C1_short_circuit` at a concrete rejected probe. -/
theorem C1_short_circuit_witness :
    (checkEndpoint ⟨"e1", "svc", "http://x", 200, 2, 200, true⟩
        ⟨.OPEN, 3, 0, 2, 600002, 3, [0, 1, 2]⟩ (.transport "boom") 350000 350001 3 true).breaker
      = Breaker.cleanOldTimestamps
          (breakerConfigFor ⟨"e1", "svc", "http://x", 200, 2, 200, true⟩) 350000
          ⟨.OPEN, 3, 0, 2, 600002, 3, [0, 1, 2]⟩ ∧
    (checkEndpoint ⟨"e1", "svc", "http://x", 200, 2, 200, true⟩
        ⟨.OPEN, 3, 0, 2, 600002, 3, [0, 1, 2]⟩ (.transport "boom") 350000 350001 3 true).trace
      = [.insertCheck ⟨"e1", "svc", .DOWN, 0, 0, 350001, some "Circuit breaker open"⟩] ∧
    (checkEndpoint ⟨"e1", "svc", "http://x", 200, 2, 200, true⟩
        ⟨.OPEN, 3, 0, 2, 600002, 3, [0, 1, 2]⟩ (.transport "boom") 350000 350001 3 true).cf = 3 :=
  C1_short_circuit _ _ _ _ _ _ _ (by decide) (by decide)

/-- Claim C2 asserts that a CLOSED breaker opens exactly when the sliding
window inside `monitoringPeriod` holds at least `minimumRequests` samples
with a failure rate at or above the threshold. The code instead evaluates
`failures / requestCount` over counters that survive a partial prune: with
failureThreshold 50, resetTimeout 1000, monitoringPeriod 100 and
minimumRequests 3, failures recorded at t = 0, 50, 120 open the breaker on
the third call even though its pruned window then holds only the two samples
`[50, 120]` — fewer than `minimumRequests`. -/
theorem C2_counterexample :
    let cfg : CircuitBreakerConfig := ⟨50, 1000, 100, 3⟩
    let s1 : Breaker := ⟨.CLOSED, 1, 0, 0, 0, 1, [0]⟩
    let s2 : Breaker := ⟨.CLOSED, 2, 0, 50, 0, 2, [0, 50]⟩
    let s3 : Breaker := ⟨.OPEN, 3, 0, 120, 1120, 3, [50, 120]⟩
    (Breaker.execute cfg 0 0 false Breaker.initial).1 = s1 ∧
    (Breaker.execute cfg 50 50 false s1).1 = s2 ∧
    (Breaker.execute cfg 120 120 false s2).1 = s3 ∧
    s2.state = .CLOSED ∧ s3.state = .OPEN ∧
    s3.requestTimestamps.length < cfg.minimumRequests := by
  decide

/-- Claim C2 (amended): from CLOSED, a recorded failure transitions the
breaker to OPEN — setting `nextAttempt = now + resetTimeout` — exactly when,
counting the new sample, `requestCount ≥ minimumRequests` and
`failures / requestCount ≥ failureThreshold / 100`, where `failures` counts
consecutive failures since the last success and `requestCount` counts samples
since the window last emptied (not the window size). Stale timestamps are
pruned at the entry of every `execute` call, and exactly when the pruned
window is empty the failure/success/request counters all reset to 0. -/
theorem C2_open_transition (cfg : CircuitBreakerConfig) (b : Breaker) (now : ℤ)
    (h : b.state = .CLOSED) :
    ((Breaker.onFailure cfg now b).state = .OPEN ↔
      (cfg.minimumRequests ≤ b.requestCount + 1 ∧
        (cfg.failureThreshold : ℚ) / 100
          ≤ (((b.failures + 1 : ℕ)) : ℚ) / (((b.requestCount + 1 : ℕ)) : ℚ))) ∧
    ((Breaker.onFailure cfg now b).state = .OPEN →
      (Breaker.onFailure cfg now b).nextAttempt = now + cfg.resetTimeout) ∧
    (Breaker.cleanOldTimestamps cfg now b).requestTimestamps
        = b.requestTimestamps.filter (fun t => now - cfg.monitoringPeriod < t) ∧
    (b.requestTimestamps.filter (fun t => now - cfg.monitoringPeriod < t) = [] →
      (Breaker.cleanOldTimestamps cfg now b).failures = 0 ∧
      (Breaker.cleanOldTimestamps cfg now b).successes = 0 ∧
      (Breaker.cleanOldTimestamps cfg now b).requestCount = 0) ∧
    (b.requestTimestamps.filter (fun t => now - cfg.monitoringPeriod < t) ≠ [] →
      (Breaker.cleanOldTimestamps cfg now b).failures = b.failures ∧
      (Breaker.cleanOldTimestamps cfg now b).successes = b.successes ∧
      (Breaker.cleanOldTimestamps cfg now b).requestCount = b.requestCount) := by
  have hdiv := Breaker.onFailure_rate_iff_div cfg.failureThreshold (b.failures + 1)
    (b.requestCount + 1) (Nat.succ_pos _)
  refine ⟨?_, ?_, ?_, ?_, ?_⟩
  · rw [← hdiv]
    by_cases hc : cfg.minimumRequests ≤ b.requestCount + 1 ∧
        cfg.failureThreshold * (b.requestCount + 1) ≤ (b.failures + 1) * 100
    · simp [Breaker.onFailure, h, hc]
    · simp [Breaker.onFailure, h, hc]
  · intro hopen
    by_cases hc : cfg.minimumRequests ≤ b.requestCount + 1 ∧
        cfg.failureThreshold * (b.requestCount + 1) ≤ (b.failures + 1) * 100
    · simp [Breaker.onFailure, h, hc]
    · exfalso
      simp [Breaker.onFailure, h, hc] at hopen
  · simp only [Breaker.cleanOldTimestamps]
    split <;> rfl
  · intro hempty
    simp only [Breaker.cleanOldTimestamps]
    rw [if_pos (by simp [hempty])]
    exact ⟨rfl, rfl, rfl⟩
  · intro hne
    simp only [Breaker.cleanOldTimestamps]
    rw [if_neg (by simpa using hne)]
    exact ⟨rfl, rfl, rfl⟩

/-- Witness for `C2_open_transition`: the third failure of the counterexample
trace, evaluated through the amended transition rule. -/
theorem C2_open_transition_witness :
    ((Breaker.onFailure ⟨50, 1000, 100, 3⟩ 120 ⟨.CLOSED, 2, 0, 50, 0, 2, [50]⟩).state = .OPEN ↔
      ((3 : ℕ) ≤ 2 + 1 ∧
        ((50 : ℕ) : ℚ) / 100 ≤ (((2 + 1 : ℕ)) : ℚ) / (((2 + 1 : ℕ)) : ℚ))) ∧
    ((Breaker.onFailure ⟨50, 1000, 100, 3⟩ 120 ⟨.CLOSED, 2, 0, 50, 0, 2, [50]⟩).state = .OPEN →
      (Breaker.onFailure ⟨50, 1000, 100, 3⟩ 120 ⟨.CLOSED, 2, 0, 50, 0, 2, [50]⟩).nextAttempt
        = 120 + 1000) ∧
    (Breaker.cleanOldTimestamps ⟨50, 1000, 100, 3⟩ 120
        ⟨.CLOSED, 2, 0, 50, 0, 2, [50]⟩).requestTimestamps
      = List.filter (fun t => (120 : ℤ) - 100 < t) [50] ∧
    (List.filter (fun t => (120 : ℤ) - 100 < t) [50] = [] →
      (Breaker.cleanOldTimestamps ⟨50, 1000, 100, 3⟩ 120
          ⟨.CLOSED, 2, 0, 50, 0, 2, [50]⟩).failures = 0 ∧
      (Breaker.cleanOldTimestamps ⟨50, 1000, 100, 3⟩ 120
          ⟨.CLOSED, 2, 0, 50, 0, 2, [50]⟩).successes = 0 ∧
      (Breaker.cleanOldTimestamps ⟨50, 1000, 100, 3⟩ 120
          ⟨.CLOSED, 2, 0, 50, 0, 2, [50]⟩).requestCount = 0) ∧
    (List.filter (fun t => (120 : ℤ) - 100 < t) [50] ≠ [] →
      (Breaker.cleanOldTimestamps ⟨50, 1000, 100, 3⟩ 120
          ⟨.CLOSED, 2, 0, 50, 0, 2, [50]⟩).failures = 2 ∧
      (Breaker.cleanOldTimestamps ⟨50, 1000, 100, 3⟩ 120
          ⟨.CLOSED, 2, 0, 50, 0, 2, [50]⟩).successes = 0 ∧
      (Breaker.cleanOldTimestamps ⟨50, 1000, 100, 3⟩ 120
          ⟨.CLOSED, 2, 0, 50, 0, 2, [50]⟩).requestCount = 2) :=
  C2_open_transition ⟨50, 1000, 100, 3⟩ ⟨.CLOSED, 2, 0, 50, 0, 2, [50]⟩ 120 rfl

/-- Notices produced by `handleConsecutiveFailures` are `systemStatus`
broadcasts only. -/
theorem handleConsecutiveFailures_notices (cf : ℕ) (c : CheckRow) :
    ∀ a ∈ (handleConsecutiveFailures cf c).2, ∃ m ty, a = Action.emitSystemStatus m ty := by
  intro a ha
  cases hst : c.status <;> simp only [handleConsecutiveFailures, hst] at ha
  · split at ha
    · simp only [List.mem_singleton] at ha
      exact ⟨_, _, ha⟩
    · simp at ha
  · split at ha
    · simp only [List.mem_singleton] at ha
      exact ⟨_, _, ha⟩
    · simp at ha

/-- Claim C3 asserts the per-probe order: insert, then statistics read, then
`newCheck`, then `uptimeUpdate`. The code broadcasts `newCheck` before it
reads the statistics: on a successful probe the trace is insert, `newCheck`,
statistics read, `uptimeUpdate`, so the statistics read does not precede the
`newCheck` emit. -/
theorem C3_counterexample :
    let e : Endpoint := ⟨"e1", "svc", "http://x", 30, 2, 200, true⟩
    let c : CheckRow := ⟨"e1", "svc", .UP, 200, 7, 7, none⟩
    let r := checkEndpoint e Breaker.initial (.response 200) 0 7 0 true
    r.trace = [.insertCheck c, .emitNewCheck c, .statsRead, .emitUptimeUpdate] ∧
    ¬(r.trace.indexOf .statsRead < r.trace.indexOf (.emitNewCheck c)) := by
  decide

/-- Claim C3 (amended): within one probe, either the breaker short-circuits
and the trace is the lone short-circuit insert, or the four actions occur in
the order check insert → `newCheck` emit → statistics read → `uptimeUpdate`
emit (with only `systemStatus` notices interleaved after the insert). In
particular the `newCheck` event for check C precedes the `uptimeUpdate`
event, and the statistics read it derives from follows the insert of C, so
that read sees a store state that includes C. -/
theorem C3_order (e : Endpoint) (b : Breaker) (fr : FetchOutcome)
    (tStart tEnd : ℤ) (cf : ℕ) :
    (∃ row : CheckRow, (checkEndpoint e b fr tStart tEnd cf true).trace = [.insertCheck row]) ∨
    (∃ row : CheckRow, ∃ notices : List Action,
      (checkEndpoint e b fr tStart tEnd cf true).trace
        = .insertCheck row :: (notices ++ [.emitNewCheck row, .statsRead, .emitUptimeUpdate]) ∧
      ∀ a ∈ notices, ∃ m ty, a = Action.emitSystemStatus m ty) := by
  unfold checkEndpoint
  rcases hp : Breaker.execute (breakerConfigFor e) tStart tEnd (opError e fr).isNone b
    with ⟨b', res⟩
  cases res
  case rejected =>
    simp only [checkEndpointDispatch, checkEndpointCatch]
    rw [if_pos (breakerOpenError_includes e)]
    left
    exact ⟨_, rfl⟩
  case succeeded =>
    simp only [checkEndpointDispatch, emitResult]
    right
    refine ⟨upRow e fr tStart tEnd, (handleConsecutiveFailures cf (upRow e fr tStart tEnd)).2,
      ?_, handleConsecutiveFailures_notices _ _⟩
    simp
  case failed =>
    simp only [checkEndpointDispatch, checkEndpointCatch]
    by_cases hinc : strIncludes ((opError e fr).getD ⟨"Error", ""⟩).message
        "Circuit breaker is OPEN" = true
    · rw [if_pos hinc]
      left
      exact ⟨_, rfl⟩
    · rw [if_neg hinc]
      simp only [emitResult]
      right
      refine ⟨⟨e.id, e.name, .DOWN, (classifyDown e ((opError e fr).getD ⟨"Error", ""⟩)).1,
          tEnd - tStart, tEnd, some (classifyDown e ((opError e fr).getD ⟨"Error", ""⟩)).2⟩,
        (handleConsecutiveFailures cf ⟨e.id, e.name, .DOWN,
          (classifyDown e ((opError e fr).getD ⟨"Error", ""⟩)).1, tEnd - tStart, tEnd,
          some (classifyDown e ((opError e fr).getD ⟨"Error", ""⟩)).2⟩).2,
        ?_, handleConsecutiveFailures_notices _ _⟩
      simp

/-- Half in the floor is absorbed: `⌊q + 1/2⌋` is nonnegative for
nonnegative `q`. -/
theorem jsRound_nonneg {q : ℚ} (h : 0 ≤ q) : 0 ≤ jsRound q := by
  simp only [jsRound]
  exact Int.le_floor.mpr (by push_cast; linarith)

/-- Rounding half-up cannot overshoot an integer bound. -/
theorem jsRound_le_of_le {q : ℚ} {M : ℤ} (h : q ≤ (M : ℚ)) : jsRound q ≤ M := by
  simp only [jsRound]
  have h1 : (⌊q + 1 / 2⌋ : ℤ) ≤ ⌊(M : ℚ) + 1 / 2⌋ := Int.floor_le_floor (by linarith)
  have h2 : (⌊(M : ℚ) + 1 / 2⌋ : ℤ) = M + ⌊(1 : ℚ) / 2⌋ := by
    rw [add_comm, Int.floor_add_int, add_comm]
  have h3 : (⌊(1 : ℚ) / 2⌋ : ℤ) = 0 := by
    rw [Int.floor_eq_iff]; norm_num
  omega

/-- Two-decimal rounding of zero is zero. -/
theorem round2_zero : round2 0 = 0 := by
  have h3 : (⌊(1 : ℚ) / 2⌋ : ℤ) = 0 := by
    rw [Int.floor_eq_iff]; norm_num
  simp only [round2, jsRound]
  norm_num [h3]

/-- Claim C4 asserts uptimePercentage = ⌊(up/total)·10000⌋/100. The code uses
`Math.round`, not a floor: with 2 UP rows and 1 DOWN row in the window the
code reports 66.67 while the claimed floor formula gives 66.66. -/
theorem C4_counterexample :
    let rows : List CheckRow :=
      [⟨"e", "n", .UP, 200, 10, 3000, none⟩,
       ⟨"e", "n", .UP, 200, 10, 2000, none⟩,
       ⟨"e", "n", .DOWN, 500, 10, 1000, some "x"⟩]
    let s := getUptimeStatistics "e" 0 5000 rows
    s.totalChecks = 3 ∧ s.successfulChecks = 2 ∧
    s.uptimePercentage = 6667 / 100 ∧
    s.uptimePercentage ≠ ((⌊((2 : ℚ) / 3) * 10000⌋ : ℤ) : ℚ) / 100 := by
  have hdu : decide (Status.DOWN = Status.UP) = false := rfl
  have hf1 : (⌊(2 : ℚ) / 3 * 100 * 100 + 1 / 2⌋ : ℤ) = 6667 := by
    rw [Int.floor_eq_iff]; norm_num
  have hf2 : (⌊((2 : ℚ) / 3) * 10000⌋ : ℤ) = 6666 := by
    rw [Int.floor_eq_iff]; norm_num
  norm_num [getUptimeStatistics, msPerDay, round2, jsRound, List.filter, hdu, hf1, hf2]

/-- Claim C4 (amended): for total > 0 the statistics read returns
`uptimePercentage = round((up/total)·10000)/100` with round half-up (the
behaviour of `Math.round`), a value in [0, 100] and two decimals; it returns
0 when total = 0; and `averageResponseTime` is rounded the same way, 0 when
there are no samples. -/
theorem C4_stats (eid : String) (cf : ℕ) (now : ℤ) (rows : List CheckRow) :
    statsRounding eid cf now rows := by
  simp only [statsRounding, getUptimeStatistics]
  refine ⟨List.length_filter_le _ _, ?_, ?_, ?_⟩
  · intro h0
    rw [if_neg (by omega), if_neg (by omega)]
    exact ⟨round2_zero, round2_zero⟩
  · intro h0
    rw [if_pos h0, if_pos h0]
    constructor
    · simp only [round2]
      rw [show ∀ x : ℚ, x * 100 * 100 = x * 10000 from fun x => by ring]
    · simp only [round2]
  · by_cases h0 : 0 < (rows.filter (fun r => now - msPerDay ≤ r.timestamp)).length
    · rw [if_pos h0]
      have hst : (((rows.filter (fun r => now - msPerDay ≤ r.timestamp)).filter
            (fun r => r.status = Status.UP)).length : ℚ)
          ≤ ((rows.filter (fun r => now - msPerDay ≤ r.timestamp)).length : ℚ) := by
        exact_mod_cast List.length_filter_le _ _
      have htpos : (0 : ℚ) < ((rows.filter (fun r => now - msPerDay ≤ r.timestamp)).length : ℚ) := by
        exact_mod_cast h0
      have hv0 : 0 ≤ (((rows.filter (fun r => now - msPerDay ≤ r.timestamp)).filter
            (fun r => r.status = Status.UP)).length : ℚ)
          / ((rows.filter (fun r => now - msPerDay ≤ r.timestamp)).length : ℚ) * 100 := by
        positivity
      have hv1 : (((rows.filter (fun r => now - msPerDay ≤ r.timestamp)).filter
            (fun r => r.status = Status.UP)).length : ℚ)
          / ((rows.filter (fun r => now - msPerDay ≤ r.timestamp)).length : ℚ) * 100 ≤ 100 := by
        have hle1 : (((rows.filter (fun r => now - msPerDay ≤ r.timestamp)).filter
              (fun r => r.status = Status.UP)).length : ℚ)
            / ((rows.filter (fun r => now - msPerDay ≤ r.timestamp)).length : ℚ) ≤ 1 :=
          (div_le_one htpos).mpr hst
        linarith
      constructor
      · simp only [round2]
        apply div_nonneg _ (by norm_num)
        exact_mod_cast jsRound_nonneg (by linarith)
      · simp only [round2]
        rw [div_le_iff₀ (by norm_num : (0 : ℚ) < 100)]
        have hb : jsRound ((((rows.filter (fun r => now - msPerDay ≤ r.timestamp)).filter
              (fun r => r.status = Status.UP)).length : ℚ)
            / ((rows.filter (fun r => now - msPerDay ≤ r.timestamp)).length : ℚ) * 100 * 100)
            ≤ (10000 : ℤ) := by
          apply jsRound_le_of_le
          push_cast
          linarith
        calc ((jsRound _ : ℤ) : ℚ) ≤ ((10000 : ℤ) : ℚ) := by exact_mod_cast hb
          _ = 100 * 100 := by norm_num
    · rw [if_neg h0]
      rw [round2_zero]
      norm_num

/-- Witness for `C4_stats` on a one-row window. -/
theorem C4_stats_witness :
    statsRounding "e" 0 2000 [⟨"e", "n", .UP, 200, 50, 1000, none⟩] :=
  C4_stats "e" 0 2000 [⟨"e", "n", .UP, 200, 50, 1000, none⟩]

/-- A probe admitted by the breaker whose operation throws ends in the
`onFailure` recorder, never in a rejection. -/
theorem execute_snd_eq_failed (cfg : CircuitBreakerConfig) (tStart tEnd : ℤ) (b : Breaker)
    (hnotopen : ¬((Breaker.cleanOldTimestamps cfg tStart b).state = .OPEN ∧
      tStart < (Breaker.cleanOldTimestamps cfg tStart b).nextAttempt)) :
    (Breaker.execute cfg tStart tEnd false b).2 = .failed := by
  simp only [Breaker.execute]
  rw [if_neg hnotopen]
  rfl

/-- A failed probe lands in the catch block with the operation's error. -/
theorem checkEndpoint_eq_catch (e : Endpoint) (b : Breaker) (fr : FetchOutcome)
    (tStart tEnd : ℤ) (cf : ℕ) (statsOk : Bool)
    (hfail : (Breaker.execute (breakerConfigFor e) tStart tEnd (opError e fr).isNone b).2
      = .failed) :
    checkEndpoint e b fr tStart tEnd cf statsOk
      = checkEndpointCatch e
          (Breaker.execute (breakerConfigFor e) tStart tEnd (opError e fr).isNone b).1
          ((opError e fr).getD ⟨"Error", ""⟩) tStart tEnd cf statsOk := by
  unfold checkEndpoint
  rcases hp : Breaker.execute (breakerConfigFor e) tStart tEnd (opError e fr).isNone b
    with ⟨b2, res⟩
  rw [hp] at hfail
  simp only at hfail
  subst hfail
  simp [checkEndpointDispatch]

/-- The upper-case `C` of the open-circuit marker never occurs in a
`Got {got}, expected {expected}` message, whose characters are the literal
letters and decimal digits only. -/
theorem C_not_mem_gotMessage (got expected : ℕ) :
    'C' ∉ ("Got " ++ natToString got ++ ", expected " ++ natToString expected).data := by
  rw [gotMessage_data]
  intro hmem
  have hg := natChars_all_digits got
  have he := natChars_all_digits expected
  simp only [List.mem_cons, List.mem_append] at hmem
  rcases hmem with h | h | h | h | h | h | h | h | h | h | h | h | h | h | h | h | h
  · exact absurd h (by decide)
  · exact absurd h (by decide)
  · exact absurd h (by decide)
  · exact absurd h (by decide)
  · have := hg 'C' h
    exact absurd this (by decide)
  · exact absurd h (by decide)
  · exact absurd h (by decide)
  · exact absurd h (by decide)
  · exact absurd h (by decide)
  · exact absurd h (by decide)
  · exact absurd h (by decide)
  · exact absurd h (by decide)
  · exact absurd h (by decide)
  · exact absurd h (by decide)
  · exact absurd h (by decide)
  · exact absurd h (by decide)
  · have := he 'C' h
    exact absurd this (by decide)

/-- The `Got {got}, expected {expected}` message does not contain the
open-circuit marker. -/
theorem gotMessage_no_marker (got expected : ℕ) :
    strIncludes ("Got " ++ natToString got ++ ", expected " ++ natToString expected)
      "Circuit breaker is OPEN" = false := by
  have hpat : ("Circuit breaker is OPEN" : String).data
      = 'C' :: ("ircuit breaker is OPEN" : String).data := rfl
  simp only [strIncludes, hpat]
  exact listIncludes_eq_false_of_head_not_mem (C_not_mem_gotMessage got expected)

/-- The `Got {got}, expected {expected}` message contains `Got`. -/
theorem gotMessage_has_got (got expected : ℕ) :
    strIncludes ("Got " ++ natToString got ++ ", expected " ++ natToString expected)
      "Got" = true := by
  apply listIncludes_of_eq_append (r := ' ' :: (natChars got ++ (',' :: ' ' :: ('e' :: 'x' ::
    'p' :: 'e' :: 'c' :: 't' :: 'e' :: 'd' :: ' ' :: natChars expected))))
  rw [gotMessage_data]
  rfl

/-- The scanner recovers the received status from the
`Got {got}, expected {expected}` message. -/
theorem findGotNum_gotMessage (got expected : ℕ) :
    findGotNum ("Got " ++ natToString got ++ ", expected " ++ natToString expected).data
      = some got := by
  rw [gotMessage_data]
  rw [findGotNum_here (natChars_ne_nil got) (natChars_all_digits got)
    (by intro c hc; simp only [List.head?] at hc; cases hc; rfl)]
  rw [digitsToNat_natChars]

/-- Claim C5 asserts every transport error is classified as
`Connection failed: {details}`. The classifier keys on the error message: a
transport failure whose message happens to contain `Got` (here `Got lost`)
is stored verbatim instead of being prefixed `Connection failed: `. -/
theorem C5_counterexample :
    let e : Endpoint := ⟨"e1", "svc", "http://x", 30, 2, 200, true⟩
    let r := checkEndpoint e Breaker.initial (.transport "Got lost") 0 5 0 true
    r.trace.head? = some (.insertCheck ⟨"e1", "svc", .DOWN, 0, 5, 5, some "Got lost"⟩) ∧
    "Got lost" ≠ "Connection failed: " ++ "Got lost" := by
  decide

/-- Claim C5 (amended): for a probe admitted by the breaker that fails, the
persisted DOWN check is classified by the error's name and message: a
deadline expiry (error named `AbortError`) gives
`errorReason = "Timeout after {timeout}s"` and statusCode 0; an HTTP status
differing from `expectedStatus` gives
`errorReason = "Got {got}, expected {expected}"` with statusCode the received
status; and a transport error whose message contains neither
`Circuit breaker is OPEN` nor `Got` gives
`errorReason = "Connection failed: {details}"` and statusCode 0. (A transport
message containing those markers is classified by them instead — the
counterexample above.) -/
theorem C5_classification (e : Endpoint) (b : Breaker) (tStart tEnd : ℤ) (cf : ℕ)
    (statsOk : Bool) (s : ℕ) (m : String)
    (hnotopen : ¬((Breaker.cleanOldTimestamps (breakerConfigFor e) tStart b).state = .OPEN ∧
      tStart < (Breaker.cleanOldTimestamps (breakerConfigFor e) tStart b).nextAttempt))
    (hs : s ≠ e.expectedStatus)
    (hm1 : strIncludes m "Circuit breaker is OPEN" = false)
    (hm2 : strIncludes m "Got" = false) :
    (checkEndpoint e b .abort tStart tEnd cf statsOk).trace.head?
      = some (.insertCheck ⟨e.id, e.name, .DOWN, 0, tEnd - tStart, tEnd,
          some ("Timeout after " ++ natToString e.timeout ++ "s")⟩) ∧
    (checkEndpoint e b (.response s) tStart tEnd cf statsOk).trace.head?
      = some (.insertCheck ⟨e.id, e.name, .DOWN, s, tEnd - tStart, tEnd,
          some ("Got " ++ natToString s ++ ", expected " ++ natToString e.expectedStatus)⟩) ∧
    (checkEndpoint e b (.transport m) tStart tEnd cf statsOk).trace.head?
      = some (.insertCheck ⟨e.id, e.name, .DOWN, 0, tEnd - tStart, tEnd,
          some ("Connection failed: " ++ m)⟩) := by
  refine ⟨?_, ?_, ?_⟩
  · rw [checkEndpoint_eq_catch e b .abort tStart tEnd cf statsOk
      (execute_snd_eq_failed _ _ _ _ hnotopen)]
    simp only [opError, Option.getD_some, checkEndpointCatch]
    rw [if_neg (by decide)]
    simp [emitResult, classifyDown]
  · have hop : opError e (.response s)
        = some ⟨"Error", "Got " ++ natToString s ++ ", expected "
            ++ natToString e.expectedStatus⟩ := by
      simp [opError, hs]
    have hfail : (Breaker.execute (breakerConfigFor e) tStart tEnd
        (opError e (.response s)).isNone b).2 = .failed := by
      rw [hop]
      exact execute_snd_eq_failed _ _ _ _ hnotopen
    rw [checkEndpoint_eq_catch e b (.response s) tStart tEnd cf statsOk hfail]
    rw [hop]
    simp only [Option.getD_some, checkEndpointCatch]
    rw [if_neg (by rw [gotMessage_no_marker s e.expectedStatus]; exact Bool.false_ne_true)]
    simp only [emitResult, classifyDown]
    rw [if_neg (by decide)]
    rw [if_pos (gotMessage_has_got s e.expectedStatus)]
    rw [findGotNum_gotMessage s e.expectedStatus]
    rfl
  · rw [checkEndpoint_eq_catch e b (.transport m) tStart tEnd cf statsOk
      (execute_snd_eq_failed _ _ _ _ hnotopen)]
    simp only [opError, Option.getD_some, checkEndpointCatch]
    rw [if_neg (by rw [hm1]; exact Bool.false_ne_true)]
    simp only [emitResult, classifyDown]
    rw [if_neg (by decide)]
    rw [if_neg (by rw [hm2]; exact Bool.false_ne_true)]
    rfl

/-- Witness for `C5_classification` at a fresh breaker, status 500 and a
plain transport message. -/
theorem C5_classification_witness :
    (checkEndpoint ⟨"e1", "svc", "http://x", 30, 2, 200, true⟩ Breaker.initial .abort
        0 5 0 true).trace.head?
      = some (.insertCheck ⟨"e1", "svc", .DOWN, 0, 5 - 0, 5,
          some ("Timeout after " ++ natToString 2 ++ "s")⟩) ∧
    (checkEndpoint ⟨"e1", "svc", "http://x", 30, 2, 200, true⟩ Breaker.initial (.response 500)
        0 5 0 true).trace.head?
      = some (.insertCheck ⟨"e1", "svc", .DOWN, 500, 5 - 0, 5,
          some ("Got " ++ natToString 500 ++ ", expected " ++ natToString 200)⟩) ∧
    (checkEndpoint ⟨"e1", "svc", "http://x", 30, 2, 200, true⟩ Breaker.initial
        (.transport "ECONNREFUSED") 0 5 0 true).trace.head?
      = some (.insertCheck ⟨"e1", "svc", .DOWN, 0, 5 - 0, 5,
          some ("Connection failed: " ++ "ECONNREFUSED")⟩) :=
  C5_classification ⟨"e1", "svc", "http://x", 30, 2, 200, true⟩ Breaker.initial 0 5 0 true
    500 "ECONNREFUSED" (by decide) (by decide) (by decide) (by decide)

/-- An absent key is a key of no entry. -/
theorem alookup_eq_none {β : Type} {m : List (String × β)} {k : String} :
    alookup m k = none ↔ ∀ p ∈ m, p.1 ≠ k := by
  induction m with
  | nil => simp [alookup]
  | cons a m ih =>
    by_cases ha : a.1 = k
    · simp [alookup, ha]
    · simp [alookup, ha, ih]

/-- A found binding is an entry of the list. -/
theorem alookup_mem {β : Type} {m : List (String × β)} {k : String} {v : β}
    (h : alookup m k = some v) : (k, v) ∈ m := by
  induction m with
  | nil => simp [alookup] at h
  | cons a m ih =>
    by_cases ha : a.1 = k
    · rw [alookup, if_pos ha] at h
      cases h
      subst ha
      simp
    · rw [alookup, if_neg ha] at h
      exact List.mem_cons_of_mem _ (ih h)

/-- With unique keys, entries sharing a key coincide. -/
theorem mem_eq_of_nodup_fst {l : List (String × ℕ)} (h : (l.map Prod.fst).Nodup)
    {p q : String × ℕ} (hp : p ∈ l) (hq : q ∈ l) (hk : p.1 = q.1) : p = q := by
  induction l with
  | nil => cases hp
  | cons a l ih =>
    simp only [List.map_cons, List.nodup_cons] at h
    rcases List.mem_cons.mp hp with rfl | hp' <;> rcases List.mem_cons.mp hq with rfl | hq'
    · rfl
    · exact absurd (List.mem_map.mpr ⟨q, hq', hk.symm⟩) h.1
    · exact absurd (List.mem_map.mpr ⟨p, hp', hk⟩) h.1
    · exact ih h.2 hp' hq'

/-- With unique values, entries sharing a value coincide. -/
theorem mem_eq_of_nodup_snd {l : List (String × ℕ)} (h : (l.map Prod.snd).Nodup)
    {p q : String × ℕ} (hp : p ∈ l) (hq : q ∈ l) (hk : p.2 = q.2) : p = q := by
  induction l with
  | nil => cases hp
  | cons a l ih =>
    simp only [List.map_cons, List.nodup_cons] at h
    rcases List.mem_cons.mp hp with rfl | hp' <;> rcases List.mem_cons.mp hq with rfl | hq'
    · rfl
    · exact absurd (List.mem_map.mpr ⟨q, hq', hk.symm⟩) h.1
    · exact absurd (List.mem_map.mpr ⟨p, hp', hk⟩) h.1
    · exact ih h.2 hp' hq'

/-- Every scheduler step preserves the registration invariant. -/
theorem schedInv_apply {s : SchedState} (h : SchedInv s) (st : SchedStep) :
    SchedInv (applyStep s st) := by
  obtain ⟨ht, hkf, hks, hfresh⟩ := h
  cases st with
  | startEp id =>
    by_cases hl : (alookup s.intervals id).isSome
    · simpa [applyStep, hl] using ⟨ht, hkf, hks, hfresh⟩
    · have hnone : alookup s.intervals id = none := Option.not_isSome_iff_eq_none.mp hl
      have hid : ∀ p ∈ s.intervals, p.1 ≠ id := alookup_eq_none.mp hnone
      simp only [applyStep, hl, Bool.false_eq_true, if_false, if_neg]
      refine ⟨by simp [ht], ?_, ?_, ?_⟩
      · simp only [List.map_cons, List.nodup_cons]
        refine ⟨fun hc => ?_, hkf⟩
        obtain ⟨p, hp, hpe⟩ := List.mem_map.mp hc
        exact hid p hp hpe
      · simp only [List.map_cons, List.nodup_cons]
        refine ⟨fun hc => ?_, hks⟩
        obtain ⟨p, hp, hpe⟩ := List.mem_map.mp hc
        exact (Nat.ne_of_lt (hfresh p hp)) hpe
      · intro q hq
        rcases List.mem_cons.mp hq with rfl | hq'
        · exact Nat.lt_succ_self _
        · exact Nat.lt_succ_of_lt (hfresh q hq')
  | clearEp id =>
    cases hl : alookup s.intervals id with
    | none => simpa [applyStep, hl] using ⟨ht, hkf, hks, hfresh⟩
    | some t =>
      have hmem : (id, t) ∈ s.intervals := alookup_mem hl
      simp only [applyStep, hl]
      refine ⟨?_, ?_, ?_, ?_⟩
      · dsimp only
        rw [ht, List.filter_map]
        congr 1
        apply List.filter_congr
        intro q hq
        simp only [Function.comp_apply, decide_eq_decide]
        constructor
        · intro hne hq1
          exact hne (congrArg Prod.snd (mem_eq_of_nodup_fst hkf hq hmem hq1))
        · intro hne hq2
          exact hne (congrArg Prod.fst (mem_eq_of_nodup_snd hks hq hmem hq2))
      · exact List.Nodup.sublist ((List.filter_sublist _).map _) hkf
      · exact List.Nodup.sublist ((List.filter_sublist _).map _) hks
      · intro q hq
        exact hfresh q (List.mem_of_mem_filter hq)
  | stopAll =>
    simp only [applyStep]
    refine ⟨?_, by simp, by simp, by simp⟩
    dsimp only
    rw [List.map_nil, List.filter_eq_nil_iff]
    intro p hp
    rw [ht] at hp
    obtain ⟨q, hq, rfl⟩ := List.mem_map.mp hp
    have hany : s.intervals.any (fun q' => decide (q'.2 = (q.2, q.1).1)) = true :=
      List.any_eq_true.mpr ⟨q, hq, by simp⟩
    simp [hany]

/-- The invariant holds in every reachable scheduler state. -/
theorem schedInv_run (steps : List SchedStep) : SchedInv (runSched steps) := by
  suffices h : ∀ s, SchedInv s → SchedInv (steps.foldl applyStep s) from
    h _ ⟨rfl, by simp [SchedState.initial], by simp [SchedState.initial],
      by simp [SchedState.initial]⟩
  induction steps with
  | nil => exact fun s hs => hs
  | cons st rest ih => exact fun s hs => ih _ (schedInv_apply hs st)

/-- With unique keys, at most one entry carries a given key. -/
theorem filter_key_length_le_one {l : List (String × ℕ)}
    (h : (l.map Prod.fst).Nodup) (id : String) :
    (l.filter (fun q => q.1 = id)).length ≤ 1 := by
  induction l with
  | nil => simp
  | cons a l ih =>
    simp only [List.map_cons, List.nodup_cons] at h
    by_cases ha : a.1 = id
    · have hrest : l.filter (fun q => decide (q.1 = id)) = [] := by
        rw [List.filter_eq_nil_iff]
        intro p hp
        simp only [decide_eq_true_eq]
        intro hpid
        exact h.1 (List.mem_map.mpr ⟨p, hp, by rw [hpid, ha]⟩)
      simp [List.filter_cons, ha, hrest]
    · simp only [List.filter_cons, decide_eq_true_eq, ha, if_false, if_neg]
      exact ih h.2

/-- Claim C6: the scheduler's loops map holds at most one registered probe
loop per endpoint id in every reachable state — under any interleaving of
`startEndpointMonitoring`, restart teardowns and `stopMonitoring` — and
starting monitoring for an endpoint whose id is already in the map is a
no-op, so repeated or concurrent Start/Restart calls never leave two timers
registered for the same endpoint. -/
theorem C6_single_loop (steps : List SchedStep) (id : String) (s : SchedState)
    (h : (alookup s.intervals id).isSome) :
    timersFor (runSched steps) id ≤ 1 ∧ applyStep s (.startEp id) = s := by
  constructor
  · obtain ⟨ht, hkf, _, _⟩ := schedInv_run steps
    rw [timersFor, ht, List.filter_map, List.length_map]
    exact filter_key_length_le_one hkf id
  · simp [applyStep, h]

/-- Witness for `C6_single_loop`: duplicate starts and a restart of one
endpoint, and a no-op re-start on a state already holding its loop. -/
theorem C6_single_loop_witness :
    timersFor (runSched [.startEp "a", .startEp "a", .clearEp "a", .startEp "a"]) "a" ≤ 1 ∧
    applyStep ⟨[("a", 0)], [(0, "a")], 1⟩ (.startEp "a") = ⟨[("a", 0)], [(0, "a")], 1⟩ :=
  C6_single_loop [.startEp "a", .startEp "a", .clearEp "a", .startEp "a"] "a"
    ⟨[("a", 0)], [(0, "a")], 1⟩ (by decide)

/-- Writing a key binds it (the `Map.set` semantics). -/
theorem alookup_upsert_self {β : Type} (k : String) (v : β) (m : List (String × β)) :
    alookup (upsert k v m) k = some v := by
  simp [upsert, alookup]

/-- Deleting a key leaves other keys' bindings alone. -/
theorem alookup_filter_ne {β : Type} {m : List (String × β)} {k k' : String} (h : k' ≠ k) :
    alookup (deleteKey k m) k' = alookup m k' := by
  rw [deleteKey]
  induction m with
  | nil => simp [alookup]
  | cons a m ih =>
    by_cases hk : a.1 = k
    · rw [List.filter_cons]
      rw [if_neg (by simp [hk])]
      rw [alookup, if_neg (by rw [hk]; exact fun hc => h hc.symm), ih]
    · rw [List.filter_cons, if_pos (by simp [hk])]
      rw [alookup, alookup]
      split <;> [rfl; exact ih]

/-- Deleting a key removes its binding. -/
theorem alookup_filter_self {β : Type} (m : List (String × β)) (k : String) :
    alookup (deleteKey k m) k = none := by
  rw [deleteKey]
  induction m with
  | nil => simp [alookup]
  | cons a m ih =>
    by_cases hk : a.1 = k
    · rw [List.filter_cons, if_neg (by simp [hk])]
      exact ih
    · rw [List.filter_cons, if_pos (by simp [hk])]
      rw [alookup, if_neg hk]
      exact ih

/-- Writing a key leaves other keys' bindings alone. -/
theorem alookup_upsert_ne {β : Type} {k k' : String} (h : k' ≠ k) (v : β)
    (m : List (String × β)) : alookup (upsert k v m) k' = alookup m k' := by
  rw [upsert, alookup, if_neg (fun hc => h hc.symm)]
  exact alookup_filter_ne h

/-- Every bus operation preserves the room-cap invariant. -/
theorem busInv_apply {s : BusState} (h : BusInv s) (op : BusOp) :
    BusInv (applyBusOp s op).1 := by
  cases op with
  | connect sid =>
    by_cases hcap : MAX_CLIENTS ≤ s.sessions.length
    · simpa [applyBusOp, hcap] using h
    · simp only [applyBusOp, if_neg hcap]
      intro sid'
      by_cases hsid : sid' = sid
      · subst hsid
        simp [roomsOf, alookup_upsert_self]
      · simpa [roomsOf, alookup_upsert_ne hsid] using h sid'
  | subscribe sid eid =>
    by_cases hcap : MAX_ROOMS_PER_CLIENT ≤ ((alookup s.clientRooms sid).getD []).length
    · simpa [applyBusOp, hcap] using h
    · simp only [applyBusOp, if_neg hcap]
      intro sid'
      by_cases hsid : sid' = sid
      · subst hsid
        simp only [roomsOf, alookup_upsert_self, Option.getD_some]
        have hlt : ((alookup s.clientRooms sid').getD []).length < MAX_ROOMS_PER_CLIENT :=
          Nat.lt_of_not_le hcap
        split
        · omega
        · rw [List.length_append]
          simp only [List.length_singleton]
          omega
      · simpa [roomsOf, alookup_upsert_ne hsid] using h sid'
  | unsubscribe sid eid =>
    simp only [applyBusOp]
    intro sid'
    by_cases hsid : sid' = sid
    · subst hsid
      simp only [roomsOf, alookup_upsert_self, Option.getD_some]
      calc (((alookup s.clientRooms sid').getD []).filter
            (fun r => ¬(r = roomName eid))).length
          ≤ ((alookup s.clientRooms sid').getD []).length := List.length_filter_le _ _
        _ ≤ MAX_ROOMS_PER_CLIENT := h sid'
    · simpa [roomsOf, alookup_upsert_ne hsid] using h sid'
  | disconnect sid =>
    simp only [applyBusOp]
    intro sid'
    by_cases hsid : sid' = sid
    · subst hsid
      simp [roomsOf, alookup_filter_self]
    · simpa [roomsOf, alookup_filter_ne hsid] using h sid'

/-- The room cap holds in every reachable bus state. -/
theorem busInv_run (ops : List BusOp) : BusInv (runBus ops) := by
  suffices h : ∀ s, BusInv s → BusInv (ops.foldl (fun s op => (applyBusOp s op).1) s) from
    h _ (fun sid => by simp [roomsOf, BusState.initial, alookup, MAX_ROOMS_PER_CLIENT])
  induction ops with
  | nil => exact fun s hs => hs
  | cons op rest ih => exact fun s hs => ih _ (busInv_apply hs op)

/-- Claim C7: the live bus never exceeds its caps — in every reachable state
no session is in more than `MAX_ROOMS_PER_CLIENT` (10) rooms; a connection
arriving with `MAX_CLIENTS` (100) sessions established is rejected with an
error before session establishment, changing nothing; and a subscribe from a
session already holding 10 rooms receives an error notice and joins
nothing. -/
theorem C7_bus_caps (ops : List BusOp) (sid sid2 : String) (eid : Option String)
    (s : BusState) (hfull : MAX_CLIENTS ≤ s.sessions.length)
    (hrooms : MAX_ROOMS_PER_CLIENT ≤ (roomsOf s sid).length) :
    (roomsOf (runBus ops) sid2).length ≤ MAX_ROOMS_PER_CLIENT ∧
    applyBusOp s (.connect sid) = (s, [.connectionRejected sid]) ∧
    applyBusOp s (.subscribe sid eid) = (s, [.notice sid "Subscription limit reached" "error"]) := by
  refine ⟨busInv_run ops sid2, ?_, ?_⟩
  · simp [applyBusOp, hfull]
  · rw [roomsOf] at hrooms
    simp [applyBusOp, hrooms]

/-- Witness for `C7_bus_caps`: a bus at both caps. -/
theorem C7_bus_caps_witness :
    (roomsOf (runBus [.connect "a", .subscribe "a" none]) "w").length
        ≤ MAX_ROOMS_PER_CLIENT ∧
    applyBusOp ⟨List.replicate 100 "c", [("z", List.replicate 10 "r")]⟩ (.connect "z")
      = (⟨List.replicate 100 "c", [("z", List.replicate 10 "r")]⟩, [.connectionRejected "z"]) ∧
    applyBusOp ⟨List.replicate 100 "c", [("z", List.replicate 10 "r")]⟩ (.subscribe "z" none)
      = (⟨List.replicate 100 "c", [("z", List.replicate 10 "r")]⟩,
          [.notice "z" "Subscription limit reached" "error"]) :=
  C7_bus_caps [.connect "a", .subscribe "a" none] "z" "w" none
    ⟨List.replicate 100 "c", [("z", List.replicate 10 "r")]⟩ (by decide) (by decide)

/-- A table with no old rows is untouched by a batch. -/
theorem removeOldBatch_of_oldCount_zero (cutoff : ℤ) (n : ℕ) (rows : List CheckRow)
    (h : oldCount cutoff rows = 0) : removeOldBatch cutoff n rows = rows := by
  induction rows generalizing n with
  | nil => cases n <;> rfl
  | cons r rest ih =>
    simp only [oldCount, List.filter_cons] at h
    by_cases hr : r.timestamp < cutoff
    · rw [if_pos (by simpa using hr)] at h
      simp at h
    · rw [if_neg (by simpa using hr)] at h
      match n with
      | 0 => rfl
      | n + 1 =>
        rw [removeOldBatch, if_neg hr, ih (n + 1) h]

/-- Batches delete only old rows: the young rows survive unchanged. -/
theorem removeOldBatch_filter_not (cutoff : ℤ) (n : ℕ) (rows : List CheckRow) :
    (removeOldBatch cutoff n rows).filter (fun r => ¬(r.timestamp < cutoff))
      = rows.filter (fun r => ¬(r.timestamp < cutoff)) := by
  induction rows generalizing n with
  | nil => cases n <;> rfl
  | cons r rest ih =>
    match n with
    | 0 => rfl
    | n + 1 =>
      by_cases hr : r.timestamp < cutoff
      · rw [removeOldBatch, if_pos hr, ih n, List.filter_cons,
          if_neg (by simpa using hr)]
      · rw [removeOldBatch, if_neg hr, List.filter_cons, List.filter_cons,
          if_pos (by simpa using hr), if_pos (by simpa using hr), ih (n + 1)]

/-- A table with no old rows is its own young part. -/
theorem filter_not_old_eq_self (cutoff : ℤ) (rows : List CheckRow)
    (h : oldCount cutoff rows = 0) :
    rows.filter (fun r => ¬(r.timestamp < cutoff)) = rows := by
  rw [List.filter_eq_self]
  intro a ha
  have hnil : rows.filter (fun r => r.timestamp < cutoff) = [] :=
    List.length_eq_zero.mp h
  have := List.filter_eq_nil_iff.mp hnil a ha
  simpa using this

/-- The delete loop removes exactly the old rows and counts them. -/
theorem deleteOldDetailedData_spec (cutoff : ℤ) (batchSize : ℕ) (h : 0 < batchSize) :
    ∀ (N : ℕ) (rows : List CheckRow), oldCount cutoff rows ≤ N →
      (deleteOldDetailedData cutoff batchSize rows).1
        = rows.filter (fun r => ¬(r.timestamp < cutoff)) ∧
      (deleteOldDetailedData cutoff batchSize rows).2 = oldCount cutoff rows := by
  intro N
  induction N with
  | zero =>
    intro rows h0
    have hz : oldCount cutoff rows = 0 := Nat.le_zero.mp h0
    have hrb : removeOldBatch cutoff batchSize rows = rows :=
      removeOldBatch_of_oldCount_zero cutoff batchSize rows hz
    rw [deleteOldDetailedData, dif_pos (by rw [hrb]; omega)]
    rw [hrb, hz]
    exact ⟨(filter_not_old_eq_self cutoff rows hz).symm, rfl⟩
  | succ N ih =>
    intro rows hle
    rw [deleteOldDetailedData]
    by_cases hc : rows.length - (removeOldBatch cutoff batchSize rows).length = 0
    · rw [dif_pos hc]
      rw [removeOldBatch_length] at hc
      have hol := oldCount_le_length cutoff rows
      have hold0 : oldCount cutoff rows = 0 := by omega
      have hrb : removeOldBatch cutoff batchSize rows = rows :=
        removeOldBatch_of_oldCount_zero cutoff batchSize rows hold0
      rw [hrb, hold0]
      exact ⟨(filter_not_old_eq_self cutoff rows hold0).symm, rfl⟩
    · rw [dif_neg hc]
      dsimp only
      have hlen := removeOldBatch_length cutoff batchSize rows
      have hcnt := removeOldBatch_oldCount cutoff batchSize rows
      have hol := oldCount_le_length cutoff rows
      have hrec := ih (removeOldBatch cutoff batchSize rows) (by omega)
      refine ⟨?_, ?_⟩
      · rw [hrec.1, removeOldBatch_filter_not]
      · rw [hrec.2, hcnt, hlen]
        omega

/-- Claim C8: the detail-delete step removes only `uptime_checks` rows older
than the cutoff (every younger row survives, in order), terminates — exactly
when a batch deletes zero rows, by construction of the loop — with no row
older than the cutoff remaining and with the total deleted count equal to
the number of old rows, and no single batch removes more than `batchSize`
rows. -/
theorem C8_retention (cutoff : ℤ) (batchSize : ℕ) (rows : List CheckRow)
    (n : ℕ) (rs : List CheckRow) (h : 0 < batchSize) :
    (deleteOldDetailedData cutoff batchSize rows).1
      = rows.filter (fun r => ¬(r.timestamp < cutoff)) ∧
    (deleteOldDetailedData cutoff batchSize rows).2 = oldCount cutoff rows ∧
    rs.length - (removeOldBatch cutoff n rs).length ≤ n := by
  obtain ⟨h1, h2⟩ := deleteOldDetailedData_spec cutoff batchSize h (oldCount cutoff rows)
    rows le_rfl
  refine ⟨h1, h2, ?_⟩
  rw [removeOldBatch_length]
  omega

/-- Witness for `C8_retention`: batch size 2 over three old rows and one
young one. -/
theorem C8_retention_witness :
    (deleteOldDetailedData 100 2
        [⟨"e", "n", .DOWN, 0, 1, 10, none⟩, ⟨"e", "n", .UP, 200, 1, 20, none⟩,
         ⟨"e", "n", .UP, 200, 1, 30, none⟩, ⟨"e", "n", .UP, 200, 1, 500, none⟩]).1
      = List.filter (fun r => ¬(r.timestamp < 100))
          [⟨"e", "n", .DOWN, 0, 1, 10, none⟩, ⟨"e", "n", .UP, 200, 1, 20, none⟩,
           ⟨"e", "n", .UP, 200, 1, 30, none⟩, ⟨"e", "n", .UP, 200, 1, 500, none⟩] ∧
    (deleteOldDetailedData 100 2
        [⟨"e", "n", .DOWN, 0, 1, 10, none⟩, ⟨"e", "n", .UP, 200, 1, 20, none⟩,
         ⟨"e", "n", .UP, 200, 1, 30, none⟩, ⟨"e", "n", .UP, 200, 1, 500, none⟩]).2
      = oldCount 100
          [⟨"e", "n", .DOWN, 0, 1, 10, none⟩, ⟨"e", "n", .UP, 200, 1, 20, none⟩,
           ⟨"e", "n", .UP, 200, 1, 30, none⟩, ⟨"e", "n", .UP, 200, 1, 500, none⟩] ∧
    ([⟨"e", "n", .DOWN, 0, 1, 10, none⟩] : List CheckRow).length
        - (removeOldBatch 100 2 [⟨"e", "n", .DOWN, 0, 1, 10, none⟩]).length ≤ 2 :=
  C8_retention 100 2
    [⟨"e", "n", .DOWN, 0, 1, 10, none⟩, ⟨"e", "n", .UP, 200, 1, 20, none⟩,
     ⟨"e", "n", .UP, 200, 1, 30, none⟩, ⟨"e", "n", .UP, 200, 1, 500, none⟩]
    2 [⟨"e", "n", .DOWN, 0, 1, 10, none⟩] (by decide)

/-- Claim C9 asserts out-of-range numbers are rejected with a validation
error. They are not: the handler clamps them. A fresh name with a valid
scheme and `checkInterval = 10000` (outside [5, 3600]) creates an endpoint
with `check_interval` clamped to 3600 instead of returning an error. -/
theorem C9_counterexample :
    postEndpoint []
        ⟨some "fresh", some "http://x", some "http:", some 10000, some 5, some 200, none⟩
      = .created "fresh" 3600 5 200 "medium" ∧
    ¬((5 : ℤ) ≤ 10000 ∧ (10000 : ℤ) ≤ 3600) := by
  decide

/-- Claim C9 (amended): an `AddEndpoint` call creates an endpoint only when
the URL scheme is http/https, the (clamped) timeout is strictly below the
(clamped) check interval, and the sanitised name collides with no existing
name case-insensitively — any such violation yields a validation error and
no endpoint. Out-of-range numeric fields are not rejected: the created row
always carries `checkInterval` clamped into [5, 3600] (default 30),
`timeout` into [1, 60] (default 5) and `expectedStatus` into [100, 599]
(default 200), with `timeout < checkInterval`. -/
theorem C9_validation (existing : List String) (input : EndpointInput)
    (name : String) (ci t es : ℤ) (sev : String)
    (h : postEndpoint existing input = .created name ci t es sev) :
    (input.urlScheme = some "http:" ∨ input.urlScheme = some "https:") ∧
    ci = clampInt 5 3600 (parsedOr 30 input.checkInterval) ∧
    t = clampInt 1 60 (parsedOr 5 input.timeout) ∧
    es = clampInt 100 599 (parsedOr 200 input.expectedStatus) ∧
    5 ≤ ci ∧ ci ≤ 3600 ∧ 1 ≤ t ∧ t ≤ 60 ∧ 100 ≤ es ∧ es ≤ 599 ∧ t < ci ∧
    ∀ n ∈ existing, ¬(lowerStr n = lowerStr name) := by
  simp only [postEndpoint] at h
  split_ifs at h with h1 h2 h3 h4 h5
  simp only [PostOutcome.created.injEq] at h
  obtain ⟨hname, hci, ht, hes, hsev⟩ := h
  subst hname
  subst hci
  subst ht
  subst hes
  refine ⟨h3, rfl, rfl, rfl, ?_, ?_, ?_, ?_, ?_, ?_, ?_, ?_⟩
  · simp only [clampInt]
    omega
  · simp only [clampInt]
    omega
  · simp only [clampInt]
    omega
  · simp only [clampInt]
    omega
  · simp only [clampInt]
    omega
  · simp only [clampInt]
    omega
  · omega
  · intro n hn hlow
    exact h5 (List.any_eq_true.mpr ⟨n, hn, by simpa using hlow⟩)

/-- Witness for `C9_validation`: a clean creation request. -/
theorem C9_validation_witness :
    ((some "http:" : Option String) = some "http:" ∨
      (some "http:" : Option String) = some "https:") ∧
    (30 : ℤ) = clampInt 5 3600 (parsedOr 30 (some 30)) ∧
    (5 : ℤ) = clampInt 1 60 (parsedOr 5 (some 5)) ∧
    (200 : ℤ) = clampInt 100 599 (parsedOr 200 (some 200)) ∧
    (5 : ℤ) ≤ 30 ∧ (30 : ℤ) ≤ 3600 ∧ (1 : ℤ) ≤ 5 ∧ (5 : ℤ) ≤ 60 ∧
    (100 : ℤ) ≤ 200 ∧ (200 : ℤ) ≤ 599 ∧ (5 : ℤ) < 30 ∧
    ∀ n ∈ (["other"] : List String), ¬(lowerStr n = lowerStr "svc") :=
  C9_validation ["other"]
    ⟨some "svc", some "http://x", some "http:", some 30, some 5, some 200, none⟩
    "svc" 30 5 200 "medium" (by decide)

/-- Claim C10: the statistics read takes `recentChecks` and `currentStatus`
from the newest rows of the endpoint's entire history — the recent-10 query
carries no 24-hour restriction — so over a non-empty history (newest first)
lying entirely before the 24-hour window, `totalChecks` is 0 and
`uptimePercentage` is 0 while `recentChecks` is still the 10 newest rows and
`currentStatus` comes from the newest (out-of-window) row. -/
theorem C10_recent_full_history (eid : String) (cf : ℕ) (now : ℤ)
    (r : CheckRow) (rest : List CheckRow)
    (hsorted : (r :: rest).Sorted (fun a b => b.timestamp ≤ a.timestamp))
    (hold : ∀ x ∈ r :: rest, x.timestamp < now - msPerDay) :
    (getUptimeStatistics eid cf now (r :: rest)).recentChecks = (r :: rest).take 10 ∧
    (getUptimeStatistics eid cf now (r :: rest)).currentStatus = r.status ∧
    (getUptimeStatistics eid cf now (r :: rest)).totalChecks = 0 ∧
    (getUptimeStatistics eid cf now (r :: rest)).uptimePercentage = 0 := by
  have hwin : (r :: rest).filter (fun x => now - msPerDay ≤ x.timestamp) = [] := by
    rw [List.filter_eq_nil_iff]
    intro a ha
    simp only [decide_eq_true_eq]
    have := hold a ha
    omega
  simp only [getUptimeStatistics, hwin]
  simp [round2_zero]

/-- Witness for `C10_recent_full_history`: one DOWN row a day old. -/
theorem C10_recent_full_history_witness :
    (getUptimeStatistics "e" 0 90000000
        [⟨"e", "n", .DOWN, 500, 10, 100, some "x"⟩]).recentChecks
      = ([⟨"e", "n", .DOWN, 500, 10, 100, some "x"⟩] : List CheckRow).take 10 ∧
    (getUptimeStatistics "e" 0 90000000
        [⟨"e", "n", .DOWN, 500, 10, 100, some "x"⟩]).currentStatus = Status.DOWN ∧
    (getUptimeStatistics "e" 0 90000000
        [⟨"e", "n", .DOWN, 500, 10, 100, some "x"⟩]).totalChecks = 0 ∧
    (getUptimeStatistics "e" 0 90000000
        [⟨"e", "n", .DOWN, 500, 10, 100, some "x"⟩]).uptimePercentage = 0 :=
  C10_recent_full_history "e" 0 90000000 ⟨"e", "n", .DOWN, 500, 10, 100, some "x"⟩ []
    (by simp) (by intro x hx; rw [List.mem_singleton] at hx; subst hx; decide)

end Watchtower
